import Mathlib

/-!
# Verification of the FMV pipeline (whyumesh/FMV)

Shallow embedding of the matching / deduplication / merging / scoring /
rate-lookup pipeline implemented in `src/FMVcalnew1.py` and `src/FMV.py`.
Cells of the pandas data frames (read with `dtype=str`) are modelled as
`Option String` (`none` is a NaN cell), rows as association lists from
column name to cell, and tables as lists of rows.  Timestamps are
modelled as `Nat` (pandas timestamps are linearly ordered; the exact
parsing formats are irrelevant to the claims, so the parser is an
explicit parameter of the deduplication function).
-/

/-- Python `str.isspace` / the whitespace set used by `str.strip()`:
the six ASCII whitespace characters plus the Unicode space separators. -/
def pyIsSpace (c : Char) : Bool :=
  c == ' ' || c == '\t' || c == '\n' || c == '\r' ||
  c.toNat == 11 || c.toNat == 12 ||
  (28 ≤ c.toNat && c.toNat ≤ 31) || c.toNat == 133 || c.toNat == 160 ||
  c.toNat == 0x1680 || (0x2000 ≤ c.toNat && c.toNat ≤ 0x200a) ||
  c.toNat == 0x2028 || c.toNat == 0x2029 || c.toNat == 0x202f ||
  c.toNat == 0x205f || c.toNat == 0x3000

/-- Python `str.isprintable` on a single character, modelled on the
character classes this code base can meet: the C0/C1 control blocks and
`DEL` are non-printable, as is every whitespace character other than the
plain space `' '`; everything else is treated as printable. -/
def pyIsPrintable (c : Char) : Bool :=
  !(c.toNat < 32 || c.toNat == 127 || (128 ≤ c.toNat && c.toNat ≤ 159) ||
    (pyIsSpace c && c != ' '))

/-- Python `str.strip()` on a list of characters: drop whitespace from
both ends. -/
def pyStripL (l : List Char) : List Char :=
  ((l.dropWhile pyIsSpace).reverse.dropWhile pyIsSpace).reverse

/-- Python `str.strip()`. -/
def pyStrip (s : String) : String := ⟨pyStripL s.data⟩

/-- Python `str.lower()` (basic-latin case mapping). -/
def pyLower (s : String) : String := ⟨s.data.map Char.toLower⟩

/-- Embedding of `clean_email` from `src/FMV.py` (identical in `src/FMVcalnew1.py`):
NaN, the literal string `"nan"` and the empty string map to `""`;
otherwise strip, lowercase, then remove non-printable characters. -/
def clean_email (email : Option String) : String :=
  match email with
  | none => ""
  | some s =>
    if s = "nan" ∨ s = "" then ""
    else ⟨((pyStripL s.data).map Char.toLower).filter pyIsPrintable⟩

/-- Embedding of `calculate_tier` from `src/FMVcalnew1.py`: fixed ascending threshold
ladder on the total score. -/
def calculate_tier (total_score : Nat) : String :=
  if total_score ≤ 13 then "Tier 1"
  else if total_score ≤ 26 then "Tier 2"
  else if total_score ≤ 40 then "Tier 3"
  else "Tier 4"

/-! ## Data-frame cells and rows -/

/-- A data-frame row: association list from column name to cell
(`none` models a NaN cell). -/
abbrev Row : Type := List (String × Option String)

/-- Read a cell: pandas `row[col]` / `row.get(col)` (first matching
column; absent column reads as NaN, matching `pd.isna(None)`). -/
def getCell (row : Row) (c : String) : Option String :=
  match List.find? (fun p => p.1 == c) row with
  | some p => p.2
  | none => none

/-- Write a cell: pandas `df.loc[idx, col] = v`.  Updates the column if
present, otherwise adds it. -/
def setCell (row : Row) (c : String) (v : Option String) : Row :=
  if (List.find? (fun p => p.1 == c) row).isSome then
    List.map (fun p => if p.1 == c then (p.1, v) else p) row
  else row ++ [(c, v)]

/-- The normalized identity of a data-frame row: `clean_email` of its
`"HCP Email"` cell (`""` means "no identity"). -/
def rowKey (row : Row) : String := clean_email (getCell row "HCP Email")

/-! ## Load validation (§ validate_dataframe) -/

/-- A loaded table, as far as validation is concerned: its column
names and its number of data rows. -/
structure Df where
  cols : List String
  nrows : Nat
deriving DecidableEq

/-- pandas `df.empty`: true when either axis has length zero. -/
def Df.empty (df : Df) : Bool := df.nrows == 0 || df.cols.isEmpty

/-- Embedding of `validate_dataframe` from `src/FMVcalnew1.py`: an empty table named
`"FMV Calculator"` passes if it has the required columns; any other
empty table fails; a non-empty table passes iff no required column is
missing. -/
def validate_dataframe (df : Df) (name : String) (required_columns : List String) : Bool :=
  if df.empty && name == "FMV Calculator" then
    required_columns.all (fun c => df.cols.contains c)
  else if df.empty then false
  else required_columns.all (fun c => df.cols.contains c)

namespace FMVpy

/-- Embedding of `validate_dataframe` from `src/FMV.py`: any empty table fails; a
non-empty table passes iff no required column is missing.  (Unlike the
`FMVcalnew1.py` variant there is no special case for the Calculator
table.) -/
def validate_dataframe (df : Df) (name : String) (required_columns : List String) : Bool :=
  if df.empty then false
  else
    let _ := name
    required_columns.all (fun c => df.cols.contains c)

end FMVpy

/-! ## CV deduplication (`process_cvdump_data`, identical in
`src/FMVcalnew1.py` and `src/FMV.py`) -/

/-- A raw CVdump row: the `"HCP Email"` and `"Start time"` cells plus
`rid`, an opaque tag standing for the rest of the row (and letting us
tell otherwise identical rows apart). -/
structure CvRow where
  hcp_email : Option String
  start_time : Option String
  rid : Nat
deriving DecidableEq

/-- A processed CVdump row, after e-mail cleaning and timestamp
parsing. -/
structure PRow where
  email : String
  time : Option Nat
  rid : Nat
deriving DecidableEq

/-- The sort order used by
`df.sort_values(["HCP Email", "Start time"])`: lexicographic on
(e-mail, timestamp).  The sort runs after the `notna` filter, so every
timestamp is `some`; `getD 0` just extracts it. -/
def cvLe (a b : PRow) : Prop :=
  a.email.data < b.email.data ∨ (a.email = b.email ∧ a.time.getD 0 ≤ b.time.getD 0)

instance : DecidableRel cvLe := fun a b =>
  inferInstanceAs
    (Decidable (a.email.data < b.email.data ∨ (a.email = b.email ∧ a.time.getD 0 ≤ b.time.getD 0)))

instance : IsTotal PRow cvLe := by
  constructor
  intro a b
  rcases lt_trichotomy a.email.data b.email.data with h | h | h
  · exact Or.inl (Or.inl h)
  · have he : a.email = b.email := String.ext h
    rcases Nat.le_total (a.time.getD 0) (b.time.getD 0) with ht | ht
    · exact Or.inl (Or.inr ⟨he, ht⟩)
    · exact Or.inr (Or.inr ⟨he.symm, ht⟩)
  · exact Or.inr (Or.inl h)

instance : IsTrans PRow cvLe := by
  constructor
  intro a b c hab hbc
  rcases hab with hab | ⟨hab, hab2⟩
  · rcases hbc with hbc | ⟨hbc, _⟩
    · exact Or.inl (lt_trans hab hbc)
    · exact Or.inl (hbc ▸ hab)
  · rcases hbc with hbc | ⟨hbc, hbc2⟩
    · exact Or.inl (hab ▸ hbc)
    · exact Or.inr ⟨hab.trans hbc, le_trans hab2 hbc2⟩

/-- pandas `df.drop_duplicates(key, keep="last")`: keep a row iff its
key does not occur again later; kept rows stay in order. -/
def drop_duplicates_keep_last {α β : Type} [DecidableEq β] (key : α → β) : List α → List α
  | [] => []
  | a :: l =>
    if (l.map key).contains (key a) then drop_duplicates_keep_last key l
    else a :: drop_duplicates_keep_last key l

/-- Embedding of `process_cvdump_data` from `src/FMVcalnew1.py` / `src/FMV.py`:
clean e-mails, parse timestamps (`parse` stands for
`parse_datetime_safe`, returning `none` when no format applies), drop
rows with empty e-mail or unparseable timestamp, stable-sort by
(e-mail, timestamp) ascending, and keep the last entry per e-mail. -/
def process_cvdump_data (parse : Option String → Option Nat) (rows : List CvRow) : List PRow :=
  let mapped := rows.map (fun r => PRow.mk (clean_email r.hcp_email) (parse r.start_time) r.rid)
  let f1 := mapped.filter (fun r => r.email != "")
  let f2 := f1.filter (fun r => r.time.isSome)
  let sorted := List.insertionSort cvLe f2
  drop_duplicates_keep_last PRow.email sorted

/-! ## Matcher (`match_doctors`, identical in both evolved scripts) -/

/-- A DVL roster row: `"Account: Email"` and `"Customer Code"` cells. -/
structure DvlRow where
  account_email : Option String
  customer_code : Option String
deriving DecidableEq

/-- A combined record produced for a roster row whose e-mail was found
in the deduplicated survey table.  `survey_rid` is the tag of the
survey row whose attribute fields were copied in. -/
structure MatchedRecord where
  dvl_code : Option String
  hcp_email : String
  survey_rid : Nat
deriving DecidableEq

/-- A record produced for a roster row with no survey match. -/
structure MissingRecord where
  dvl_code : Option String
  hcp_email : String
deriving DecidableEq

/-- The matching loop of `match_doctors`: for each cleaned, surviving
roster entry (e-mail, code), append to the matched partition when the
e-mail occurs in the deduplicated survey table and to the missing
partition otherwise. -/
def match_loop (cvdump : List PRow) :
    List (String × Option String) → List MatchedRecord × List MissingRecord
  | [] => ([], [])
  | d :: rest =>
    let res := match_loop cvdump rest
    match cvdump.find? (fun c => c.email == d.1) with
    | some c => (MatchedRecord.mk d.2 d.1 c.rid :: res.1, res.2)
    | none => (res.1, MissingRecord.mk d.2 d.1 :: res.2)

/-- Embedding of `match_doctors` from `src/FMVcalnew1.py` / `src/FMV.py`: clean the
roster e-mails, drop roster rows whose cleaned e-mail is empty, then
partition the survivors against the deduplicated survey table. -/
def match_doctors (dvl : List DvlRow) (cvdump : List PRow) :
    List MatchedRecord × List MissingRecord :=
  let cleaned := dvl.map (fun r => (clean_email r.account_email, r.customer_code))
  let surviving := cleaned.filter (fun p => p.1 != "")
  match_loop cvdump surviving

/-! ## Calculator merger (`update_fmv_calculator`) -/

/-- The back-fill trigger column name used in `src/FMVcalnew1.py`. -/
def years_col_new1 : String := "Years of experience in the Specialty / Super Specialty?_x000D_\n"

/-- The back-fill trigger column name used in `src/FMV.py` (it contains
a no-break space). -/
def years_col_py : String := "Years of experience in the\u00A0Specialty / Super Specialty?_x000D_\n"

/-- The DVL-code column name. -/
def dvl_code_col : String := "DVL Code"

/-- The inner copying loop of the back-fill: for every column of the
incoming table that also exists in the target and whose incoming cell
is not NaN, write the incoming value into the target row. -/
def copy_fields (fmv_cols matched_cols : List String) (fr r : Row) : Row :=
  matched_cols.foldl
    (fun acc c =>
      if fmv_cols.contains c && (getCell r c).isSome then setCell acc c (getCell r c)
      else acc)
    fr

/-- One iteration of the update loop of `src/FMV.py`
`update_fmv_calculator`: locate the first target row whose cleaned
e-mail equals the incoming record's cleaned e-mail; if its
years-of-experience cell is NaN and the incoming one is not, copy every
non-NaN incoming field into it; otherwise leave it alone. -/
def backfill_head_py (fmv_cols matched_cols : List String) (fr r : Row) : Row :=
  if (getCell fr years_col_py).isNone && (getCell r years_col_py).isSome then
    copy_fields fmv_cols matched_cols fr r
  else fr

/-- One iteration of the `src/FMV.py` update loop over the located
first matching target row. -/
def backfill_step_py (fmv_cols matched_cols : List String) (rows : List Row) (r : Row) : List Row :=
  match rows with
  | [] => []
  | fr :: rest =>
    if rowKey fr == clean_email (getCell r "HCP Email") then
      backfill_head_py fmv_cols matched_cols fr r :: rest
    else fr :: backfill_step_py fmv_cols matched_cols rest r

/-- The update applied by `src/FMVcalnew1.py` to the located target
row: fill in a blank DVL code unconditionally, then, when the
years-of-experience trigger is blank in the target and present in the
incoming record, copy every non-NaN incoming field. -/
def backfill_head_new1 (fmv_cols matched_cols : List String) (fr r : Row) : Row :=
  let fr1 :=
    if (getCell fr dvl_code_col).isNone && (getCell r dvl_code_col).isSome then
      setCell fr dvl_code_col (getCell r dvl_code_col)
    else fr
  if (getCell fr1 years_col_new1).isNone && (getCell r years_col_new1).isSome then
    copy_fields fmv_cols matched_cols fr1 r
  else fr1

/-- One iteration of the update loop of `src/FMVcalnew1.py`
`update_fmv_calculator`: like the `src/FMV.py` variant, but the DVL
code cell is additionally filled in (when blank in the target and
present in the incoming record) regardless of the years trigger. -/
def backfill_step_new1 (fmv_cols matched_cols : List String) (rows : List Row) (r : Row) :
    List Row :=
  match rows with
  | [] => []
  | fr :: rest =>
    if rowKey fr == clean_email (getCell r "HCP Email") then
      backfill_head_new1 fmv_cols matched_cols fr r :: rest
    else fr :: backfill_step_new1 fmv_cols matched_cols rest r

/-- Shape an incoming record into the target's column order: every
target column in order, taking the incoming value where the incoming
table has the column and NaN otherwise (`new_data[col] = None` followed
by `new_data[fmv_df.columns]`). -/
def padRow (fmv_cols matched_cols : List String) (r : Row) : Row :=
  fmv_cols.map (fun c => (c, if matched_cols.contains c then getCell r c else none))

/-- Embedding of `update_fmv_calculator` from `src/FMVcalnew1.py`: split the matched
records by whether their cleaned e-mail already occurs among the
target's cleaned non-NaN e-mails; back-fill the existing ones in order,
then append the new ones, padded and reordered to the target columns. -/
def update_fmv_calculator (fmv_cols : List String) (fmv_rows : List Row)
    (matched_cols : List String) (matched_rows : List Row) : List Row :=
  if matched_rows.isEmpty then fmv_rows
  else
    let existing_emails :=
      (fmv_rows.filterMap (fun fr => getCell fr "HCP Email")).map (fun e => clean_email (some e))
    let new_data :=
      matched_rows.filter (fun r => !(existing_emails.contains (clean_email (getCell r "HCP Email"))))
    let existing_data :=
      matched_rows.filter (fun r => existing_emails.contains (clean_email (getCell r "HCP Email")))
    let fmv2 := existing_data.foldl (fun acc r => backfill_step_new1 fmv_cols matched_cols acc r) fmv_rows
    fmv2 ++ new_data.map (padRow fmv_cols matched_cols)

namespace FMVpy

/-- Embedding of `update_fmv_calculator` from `src/FMV.py`: identical to the
`src/FMVcalnew1.py` variant except for its back-fill step. -/
def update_fmv_calculator (fmv_cols : List String) (fmv_rows : List Row)
    (matched_cols : List String) (matched_rows : List Row) : List Row :=
  if matched_rows.isEmpty then fmv_rows
  else
    let existing_emails :=
      (fmv_rows.filterMap (fun fr => getCell fr "HCP Email")).map (fun e => clean_email (some e))
    let new_data :=
      matched_rows.filter (fun r => !(existing_emails.contains (clean_email (getCell r "HCP Email"))))
    let existing_data :=
      matched_rows.filter (fun r => existing_emails.contains (clean_email (getCell r "HCP Email")))
    let fmv2 := existing_data.foldl (fun acc r => backfill_step_py fmv_cols matched_cols acc r) fmv_rows
    fmv2 ++ new_data.map (padRow fmv_cols matched_cols)

end FMVpy

/-! ## Scoring engine (`create_scoring_lookup`,
`calculate_individual_scores` from `src/FMVcalnew1.py`) -/

/-- Python `dict.get(k, default)` over a string-keyed rubric. -/
def dict_get_nat (m : List (String × Nat)) (k : String) (d : Nat) : Nat :=
  match m.find? (fun p => p.1 == k) with
  | some p => p.2
  | none => d

/-- Python dict access `scoring_lookup.get(key, ...)` with an empty-dict default. -/
def dict_get_list (m : List (String × List (String × Nat))) (k : String) :
    List (String × Nat) :=
  match m.find? (fun p => p.1 == k) with
  | some p => p.2
  | none => []

/-- Python `str(row.get(col, ...))` with empty-string default: an absent
column gives the empty string; a NaN cell gives
the string `"nan"` (Python `str(float("nan"))`). -/
def pyRowGet (row : Row) (c : String) : String :=
  match List.find? (fun p => p.1 == c) row with
  | none => ""
  | some p =>
    match p.2 with
    | none => "nan"
    | some s => s

/-- Embedding of `create_scoring_lookup` from `src/FMVcalnew1.py`: the nine
statically defined rubric dictionaries, keyed exactly as in the
source. -/
def create_scoring_lookup : List (String × List (String × Nat)) :=
  [("years_experience",
    [("1-2 years of experience", 0),
     ("3-7 years of experience", 2),
     ("8-14 years of experience", 4),
     ("15+ years of experience", 6)]),
   ("clinical_experience",
    [("Minimal patient interactions and predominantly administrative/academic work", 0),
     ("Less than half the time spent with patients in clinical setting and higher focus on academic/administrative work", 2),
     ("Equal amount of time spent with patients in clinical setting and equal amount of time spent in academic/administrative work", 4),
     ("Significant time spent with patients in clinical setting and minimal time spent in academic/administrative work", 6)]),
   ("leadership",
    [("Not applicable, as not a part of any society or leadership roles in hospital", 0),
     ("1-2 years in a leadership position(s) eg. HOD of a particular speciality in Hospital or other Patient Care Setting and/or serving as a President, Vice president, Secretary,Treasurer, Board member in a Professional or Scientific Society.", 2),
     ("3-7 years in a leadership position(s) eg HOD of a particular speciality in Hospital or other Patient Care Setting and/or serving as a national/regional leader in a Professional or Scientific Society.", 4),
     ("8 or more years in a leadership position(s) eg HOD for a specialty in Hospital or other Patient Care Setting and/or serving as an international leader in a Professional or Scientific Society.", 6)]),
   ("geographical_reach",
    [("Local Influence", 0),
     ("National Influence", 2),
     ("Multi-Country Influence", 4),
     ("Global/Worldwide Influence", 6)]),
   ("academic_position",
    [("None or N/A", 0),
     ("Professor (including Associate / Assistant Professor)", 2),
     ("Professor or Adjunct/Additional/Emeritus Professor", 4),
     ("Department Chair/ HOD (or similar position)", 6)]),
   ("additional_education",
    [("None or N/A", 0),
     ("1 Additional degree, fellowship, or advanced training certification.", 2),
     ("2 Additional degrees, fellowship, or advanced training certification.", 4),
     ("3 or More Additional degrees, fellowship, or advanced training certification.", 6)]),
   ("research_experience",
    [("None or N/A", 0),
     ("Participation as an Investigator or Sub-Investigator in 1 to 4 clinical trials or research studies.", 2),
     ("Participation as an Investigator or Sub-Investigator in 5 to 9 clinical trials or research studies.", 4),
     ("Participation as an Investigator of Sub-Investigator in 10 or more clinical trials or research studies or Principal Investigator for two or more clinical trials or research studies or serving as the Principal Investigator for a clinical trial or research study that led to important medical innovations or significant medical technology breakthroughs.", 6)]),
   ("publication_experience",
    [("None or N/A", 0),
     ("Co-authorship or participation as contributing author on 1 to 4 publications.", 2),
     ("First authorship (if known) on 1 to 5 publications and/or co-authorship or participation as contributing author on 6 to 10 publications", 4),
     ("First authorship (if known) on 6 or more publications and/or co-authorship or participation as contributing author on 11 or more publications", 6)]),
   ("speaking_experience",
    [("Local speaking engagements and the scientific work done for the specialty is near to the practice location", 0),
     ("Most of the speaking engagements are directed nationally for the conferences, symposia or national webinars in the designated specialty and the scientific work done is not restricted for the local audience", 2),
     ("The speaking experiences are not restricted nationally but to a group of specified countries and the scientific work is directed to the same group of countries", 4),
     ("The speaking engagements and the scinetific work carried out is across the globe", 6)])]

/-- The nine (attribute column, rubric name) pairs of
`calculate_individual_scores`, in Score 1 .. Score 9 order. -/
def scoring_criteria : List (String × String) :=
  [(years_col_new1, "years_experience"),
   ("Clinical Experience: i.e. Time Spent with Patients?", "clinical_experience"),
   ("Leadership position(s) in a Professional or Scientific Society and/or leadership position(s) in Hospital or other Patient Care Settings (e.g. Department Head or Chief, Medical Director, Lab Direct...", "leadership"),
   ("Geographic influence as a Key Opinion Leader.", "geographical_reach"),
   ("Highest Academic Position Held in past 10 years", "academic_position"),
   ("Additional Educational Level", "additional_education"),
   ("Research Experience (e.g., industry-sponsored research, investigator-initiated research, other research) in past 10 years", "research_experience"),
   ("Publication experience in the past 10 years", "publication_experience"),
   ("Speaking experience (professional, academic, scientific, or media experience) in the past 10 years.", "speaking_experience")]

/-- Embedding of `calculate_individual_scores` from `src/FMVcalnew1.py`: Score 1 to
Score 9, each the rubric value of the row's trimmed attribute text,
defaulting to 0.  (The source spells out the nine lookups one by one;
they are mapped here over `scoring_criteria` with identical strings and
semantics.) -/
def calculate_individual_scores (scoring_lookup : List (String × List (String × Nat)))
    (row : Row) : List Nat :=
  scoring_criteria.map
    (fun c => dict_get_nat (dict_get_list scoring_lookup c.2) (pyStrip (pyRowGet row c.1)) 0)

/-! ## Rate resolver (`calculate_honorarium_rate` from
`src/FMVcalnew1.py`) -/

/-- A rate cell of the OUS FMV Rates sheet (read without `dtype=str`,
so it can be missing, numeric, or arbitrary text). -/
inductive RateCell where
  | na : RateCell
  | num : Int → RateCell
  | txt : String → RateCell
deriving DecidableEq

/-- A row of the rates sheet: its `"HCP Specialty"` cell plus the
per-tier rate cells. -/
structure RateRow where
  hcp_specialty : Option String
  cells : List (String × RateCell)
deriving DecidableEq

/-- The rates sheet: its (tier) column names, shared by all rows, and
its rows in sheet order. -/
structure RatesDf where
  tier_cols : List String
  rows : List RateRow
deriving DecidableEq

/-- Digits-only numeral value, `none` when empty or non-digit. -/
def digitsVal (l : List Char) : Option Nat :=
  if l ≠ [] ∧ l.all Char.isDigit then
    some (l.foldl (fun a c => a * 10 + (c.toNat - 48)) 0)
  else none

/-- Python `int(s)` on a string: optional sign and digits, surrounding
whitespace allowed; `none` models the `ValueError` path. -/
def pyIntOfString (s : String) : Option Int :=
  match pyStripL s.data with
  | '+' :: rest => (digitsVal rest).map Int.ofNat
  | '-' :: rest => (digitsVal rest).map (fun n => -(Int.ofNat n : Int))
  | l => (digitsVal l).map Int.ofNat

/-- Models `int(rate) if not pd.isna(rate) else 0`, with the surrounding
`except` clause turning a non-numeric text cell into 0. -/
def rate_cell_value (cell : RateCell) : Int :=
  match cell with
  | RateCell.na => 0
  | RateCell.num n => n
  | RateCell.txt s => (pyIntOfString s).getD 0

/-- Read the rate cell of a tier column (`specialty_row[tier].iloc[0]`;
an absent column reads as NaN, though the source guards on column
presence first). -/
def getRateCell (cells : List (String × RateCell)) (tier : String) : RateCell :=
  match cells.find? (fun p => p.1 == tier) with
  | some p => p.2
  | none => RateCell.na

/-- Stage 1 of the cascade: exact match on the specialty cell. -/
def rate_exact_match (spc : String) (r : RateRow) : Bool :=
  r.hcp_specialty == some spc

/-- Stage 2: case-insensitive exact match (a NaN specialty cell never
matches). -/
def rate_ci_match (spc : String) (r : RateRow) : Bool :=
  match r.hcp_specialty with
  | none => false
  | some s => pyLower s == pyLower spc

/-- Containment of one character list in another (literal substring
search; used by the spec-side predicate below and by the concrete regex
engine instances). -/
def listContains (pat : List Char) : List Char → Bool
  | [] => pat.isEmpty
  | c :: t => pat.isPrefixOf (c :: t) || listContains pat t

/-- Modelled from the spec (NOT the source): the claim describes stage
3 as literal case-insensitive substring containment of the looked-up
specialty in the table entry.  The source actually runs
`str.contains(specialty_clean, case=False, na=False)`, whose default is
`regex=True`; that call is embedded through the `re_compile` parameter
of `calculate_honorarium_rate`.  This predicate expresses the claim's
reading, for comparison with the code. -/
def spec_substr_match (spc : String) (r : RateRow) : Bool :=
  match r.hcp_specialty with
  | none => false
  | some s => listContains (pyLower spc).data (pyLower s).data

/-- Stage 3 applied to one sheet row: search the compiled
case-insensitive pattern in the specialty cell; a NaN cell never
matches (`na=False`). -/
def rate_regex_match (matcher : String → Bool) (r : RateRow) : Bool :=
  match r.hcp_specialty with
  | none => false
  | some s => matcher s

/-- The fixed per-tier default rates dictionary. -/
def default_rates : List (String × Int) :=
  [("Tier 1", 5000), ("Tier 2", 7000), ("Tier 3", 9000), ("Tier 4", 12000)]

/-- Python `dict.get(k, default)` over the rates dictionary. -/
def dict_get_int (m : List (String × Int)) (k : String) (d : Int) : Int :=
  match m.find? (fun p => p.1 == k) with
  | some p => p.2
  | none => d

/-- The shared tail of `calculate_honorarium_rate` once the cascade has
located a sheet row: guard on the tier column being present, then read
the rate cell (`int(rate) if not pd.isna(rate) else 0`, non-numeric
text giving 0 through the exception handler). -/
def rate_from_row (tier : String) (rates_df : RatesDf) (r : RateRow) : Int :=
  if rates_df.tier_cols.contains tier then rate_cell_value (getRateCell r.cells tier)
  else 0

/-- Embedding of `calculate_honorarium_rate` from `src/FMVcalnew1.py`:
cascade exact match, case-insensitive exact match, then
`str.contains(specialty_clean, case=False, na=False)` — a REGEX search
(`regex=True` is the pandas default), embedded through the `re_compile`
parameter, which stands for compiling the cleaned specialty with
`re.IGNORECASE`: `none` models a raised `re.error` (an invalid pattern
such as `"("`), which propagates to the function's blanket `except`
clause and yields 0; `some matcher` gives the per-cell search
predicate.  Each stage takes the first matching sheet row; when the
pattern compiles and nothing matches, fall back to the fixed per-tier
default; return 0 when the tier column is absent or the rate cell is
missing or non-numeric. -/
def calculate_honorarium_rate (re_compile : String → Option (String → Bool))
    (specialty : String) (tier : String) (rates_df : RatesDf) : Int :=
  let specialty_clean := pyStrip specialty
  match rates_df.rows.find? (rate_exact_match specialty_clean) with
  | some r => rate_from_row tier rates_df r
  | none =>
    match rates_df.rows.find? (rate_ci_match specialty_clean) with
    | some r => rate_from_row tier rates_df r
    | none =>
      match re_compile specialty_clean with
      | none => 0
      | some matcher =>
        match rates_df.rows.find? (rate_regex_match matcher) with
        | some r => rate_from_row tier rates_df r
        | none => dict_get_int default_rates tier 5000

/-- Modelled from the Python re module, on the inputs exercised by the
concrete instances below: compiling the pattern `"("` raises `re.error`
(missing closing parenthesis); the compiled pattern `"."` searches
successfully in every nonempty string (every character of the cells
here is a non-newline character); any other pattern used below is free
of regex metacharacters, where `re.search` with `re.IGNORECASE`
coincides with literal case-insensitive substring containment. -/
def re_engine_example : String → Option (String → Bool) := fun pat =>
  if pat = "(" then none
  else if pat = "." then some (fun s => !s.data.isEmpty)
  else some (fun s => listContains (pyLower pat).data (pyLower s).data)

/-- An e-mail string whose non-printable characters (NUL) guard inner
whitespace from `strip`: used to exhibit the cleaning order of
`clean_email`. -/
def control_email_example : String := ⟨[Char.ofNat 0, ' ', 'a', ' ', Char.ofNat 0]⟩

-- ===================================================================
-- THEOREMS
-- ===================================================================

theorem char_toLower_idem (c : Char) : Char.toLower (Char.toLower c) = Char.toLower c := by
  unfold Char.toLower
  by_cases h : c.toNat ≥ 65 ∧ c.toNat ≤ 90
  · simp only [h, if_true]
    obtain ⟨h1, h2⟩ := h
    interval_cases h3 : c.toNat <;> simp
  · simp only [h, if_false]

/-- C6 (amended): the rate resolver tries exact match, then
case-insensitive exact match, then a regex search of the cleaned
specialty over the specialty column (`str.contains`, whose pandas
default is `regex=True`, compiled with `re.IGNORECASE`), in that order
with the first hit winning; when the pattern compiles and no row
matches at any stage it returns the fixed per-tier default (Tier 1 =
5000, Tier 2 = 7000, Tier 3 = 9000, Tier 4 = 12000 — so an unmatched
specialty whose pattern compiles resolves at Tier 3 to exactly 9000);
when the pattern does NOT compile (`re.error`, e.g. the specialty
`"("`), the surrounding exception handler returns 0, not the default;
and a matched row with an absent tier column, or a missing or
non-numeric rate cell, yields 0. -/
theorem calculate_honorarium_rate_cascade :
    (∀ (re_compile : String → Option (String → Bool)) (specialty tier : String)
      (df : RatesDf) (r : RateRow),
      df.rows.find? (rate_exact_match (pyStrip specialty)) = some r →
      calculate_honorarium_rate re_compile specialty tier df =
        (if df.tier_cols.contains tier then rate_cell_value (getRateCell r.cells tier) else 0)) ∧
    (∀ (re_compile : String → Option (String → Bool)) (specialty tier : String)
      (df : RatesDf) (r : RateRow),
      df.rows.find? (rate_exact_match (pyStrip specialty)) = none →
      df.rows.find? (rate_ci_match (pyStrip specialty)) = some r →
      calculate_honorarium_rate re_compile specialty tier df =
        (if df.tier_cols.contains tier then rate_cell_value (getRateCell r.cells tier) else 0)) ∧
    (∀ (re_compile : String → Option (String → Bool)) (matcher : String → Bool)
      (specialty tier : String) (df : RatesDf) (r : RateRow),
      df.rows.find? (rate_exact_match (pyStrip specialty)) = none →
      df.rows.find? (rate_ci_match (pyStrip specialty)) = none →
      re_compile (pyStrip specialty) = some matcher →
      df.rows.find? (rate_regex_match matcher) = some r →
      calculate_honorarium_rate re_compile specialty tier df =
        (if df.tier_cols.contains tier then rate_cell_value (getRateCell r.cells tier) else 0)) ∧
    (∀ (re_compile : String → Option (String → Bool)) (matcher : String → Bool)
      (specialty tier : String) (df : RatesDf),
      re_compile (pyStrip specialty) = some matcher →
      (∀ r ∈ df.rows, rate_exact_match (pyStrip specialty) r = false ∧
        rate_ci_match (pyStrip specialty) r = false ∧
        rate_regex_match matcher r = false) →
      calculate_honorarium_rate re_compile specialty tier df =
        dict_get_int default_rates tier 5000) ∧
    dict_get_int default_rates "Tier 1" 5000 = 5000 ∧
    dict_get_int default_rates "Tier 2" 5000 = 7000 ∧
    dict_get_int default_rates "Tier 3" 5000 = 9000 ∧
    dict_get_int default_rates "Tier 4" 5000 = 12000 ∧
    (∀ (re_compile : String → Option (String → Bool)) (matcher : String → Bool)
      (specialty : String) (df : RatesDf),
      re_compile (pyStrip specialty) = some matcher →
      (∀ r ∈ df.rows, rate_exact_match (pyStrip specialty) r = false ∧
        rate_ci_match (pyStrip specialty) r = false ∧
        rate_regex_match matcher r = false) →
      calculate_honorarium_rate re_compile specialty "Tier 3" df = 9000) ∧
    (∀ (re_compile : String → Option (String → Bool)) (specialty tier : String)
      (df : RatesDf),
      df.rows.find? (rate_exact_match (pyStrip specialty)) = none →
      df.rows.find? (rate_ci_match (pyStrip specialty)) = none →
      re_compile (pyStrip specialty) = none →
      calculate_honorarium_rate re_compile specialty tier df = 0) ∧
    (∀ (re_compile : String → Option (String → Bool)) (specialty tier : String)
      (df : RatesDf) (r : RateRow),
      df.rows.find? (rate_exact_match (pyStrip specialty)) = some r →
      df.tier_cols.contains tier = false →
      calculate_honorarium_rate re_compile specialty tier df = 0) ∧
    (∀ (re_compile : String → Option (String → Bool)) (specialty tier : String)
      (df : RatesDf) (r : RateRow),
      df.rows.find? (rate_exact_match (pyStrip specialty)) = some r →
      getRateCell r.cells tier = RateCell.na →
      calculate_honorarium_rate re_compile specialty tier df = 0) ∧
    (∀ (re_compile : String → Option (String → Bool)) (specialty tier : String)
      (df : RatesDf) (r : RateRow) (s : String),
      df.rows.find? (rate_exact_match (pyStrip specialty)) = some r →
      getRateCell r.cells tier = RateCell.txt s →
      pyIntOfString s = none →
      calculate_honorarium_rate re_compile specialty tier df = 0) := by
  have key : ∀ (re_compile : String → Option (String → Bool)) (matcher : String → Bool)
      (specialty tier : String) (df : RatesDf),
      re_compile (pyStrip specialty) = some matcher →
      (∀ r ∈ df.rows, rate_exact_match (pyStrip specialty) r = false ∧
        rate_ci_match (pyStrip specialty) r = false ∧
        rate_regex_match matcher r = false) →
      calculate_honorarium_rate re_compile specialty tier df =
        dict_get_int default_rates tier 5000 := by
    intro rc matcher specialty tier df hcomp h
    have h1 : df.rows.find? (rate_exact_match (pyStrip specialty)) = none :=
      List.find?_eq_none.mpr fun x hx => by simp [(h x hx).1]
    have h2 : df.rows.find? (rate_ci_match (pyStrip specialty)) = none :=
      List.find?_eq_none.mpr fun x hx => by simp [(h x hx).2.1]
    have h3 : df.rows.find? (rate_regex_match matcher) = none :=
      List.find?_eq_none.mpr fun x hx => by simp [(h x hx).2.2]
    simp only [calculate_honorarium_rate, h1, h2, hcomp, h3]
  refine ⟨?_, ?_, ?_, key, by decide, by decide, by decide, by decide, ?_, ?_, ?_, ?_, ?_⟩
  · intro rc specialty tier df r h
    simp only [calculate_honorarium_rate, h]
    rfl
  · intro rc specialty tier df r h1 h2
    simp only [calculate_honorarium_rate, h1, h2]
    rfl
  · intro rc matcher specialty tier df r h1 h2 hcomp h3
    simp only [calculate_honorarium_rate, h1, h2, hcomp, h3]
    rfl
  · intro rc matcher specialty df hcomp h
    rw [key rc matcher specialty "Tier 3" df hcomp h]
    decide
  · intro rc specialty tier df h1 h2 hcomp
    simp only [calculate_honorarium_rate, h1, h2, hcomp]
  · intro rc specialty tier df r h1 h2
    simp only [calculate_honorarium_rate, h1, rate_from_row, h2, if_false,
      Bool.false_eq_true]
  · intro rc specialty tier df r h1 h2
    simp only [calculate_honorarium_rate, h1, rate_from_row, h2]
    split <;> rfl
  · intro rc specialty tier df r s h1 h2 h3
    simp only [calculate_honorarium_rate, h1, rate_from_row, h2]
    split
    · simp [rate_cell_value, h3]
    · rfl

/-- C6 counterexample: under the genuine Python behavior of the regex
patterns `"."` (matches every row) and `"("` (fails to compile), the
claim as stated fails — with the one-row Cardiology table, no row
exact-, case-insensitive- or literal-substring-matches the specialty
`"."`, yet the resolver returns the Cardiology Tier 3 rate 11000
instead of the claimed 9000 default; and the specialty `"("` returns 0,
not the default. -/
theorem calculate_honorarium_rate_regex_counterexample :
    [RateRow.mk (some "Cardiology") [("Tier 3", RateCell.num 11000)]].find?
      (rate_exact_match (pyStrip ".")) = none ∧
    [RateRow.mk (some "Cardiology") [("Tier 3", RateCell.num 11000)]].find?
      (rate_ci_match (pyStrip ".")) = none ∧
    [RateRow.mk (some "Cardiology") [("Tier 3", RateCell.num 11000)]].find?
      (spec_substr_match (pyStrip ".")) = none ∧
    calculate_honorarium_rate re_engine_example "." "Tier 3"
      (RatesDf.mk ["Tier 3"]
        [RateRow.mk (some "Cardiology") [("Tier 3", RateCell.num 11000)]]) = 11000 ∧
    calculate_honorarium_rate re_engine_example "(" "Tier 3"
      (RatesDf.mk ["Tier 3"]
        [RateRow.mk (some "Cardiology") [("Tier 3", RateCell.num 11000)]]) = 0 ∧
    dict_get_int default_rates "Tier 3" 5000 = 9000 := by
  refine ⟨by decide, by decide, by decide, by decide, by decide, by decide⟩

/-- Witness for `calculate_honorarium_rate_cascade`: a concrete
metacharacter-free unknown specialty, whose pattern compiles to the
literal substring search, resolves at Tier 3 to the 9000 default. -/
theorem calculate_honorarium_rate_cascade_witness :
    calculate_honorarium_rate re_engine_example "Astrobiology" "Tier 3"
      (RatesDf.mk ["Tier 1", "Tier 2", "Tier 3", "Tier 4"]
        [RateRow.mk (some "Cardiology") [("Tier 3", RateCell.num 11000)]]) = 9000 :=
  calculate_honorarium_rate_cascade.2.2.2.2.2.2.2.2.1 re_engine_example
    (fun s => listContains (pyLower (pyStrip "Astrobiology")).data (pyLower s).data)
    "Astrobiology"
    (RatesDf.mk ["Tier 1", "Tier 2", "Tier 3", "Tier 4"]
      [RateRow.mk (some "Cardiology") [("Tier 3", RateCell.num 11000)]])
    rfl (by decide)

/-- C10: when the regex stage of the lookup decides the result, the
rate is read from the first matching row in sheet order (the Boolean
mask filter preserves row order and `.iloc[0]` takes the first row),
independently of any later rows that also match. -/
theorem rate_substr_first_row (re_compile : String → Option (String → Bool))
    (matcher : String → Bool) (specialty tier : String) (tcols : List String)
    (pre post : List RateRow) (r : RateRow)
    (hcomp : re_compile (pyStrip specialty) = some matcher)
    (h1 : ∀ x ∈ pre ++ r :: post, rate_exact_match (pyStrip specialty) x = false ∧
      rate_ci_match (pyStrip specialty) x = false)
    (h2 : ∀ x ∈ pre, rate_regex_match matcher x = false)
    (h3 : rate_regex_match matcher r = true) :
    calculate_honorarium_rate re_compile specialty tier (RatesDf.mk tcols (pre ++ r :: post)) =
      (if tcols.contains tier then rate_cell_value (getRateCell r.cells tier) else 0) := by
  have hex : (pre ++ r :: post).find? (rate_exact_match (pyStrip specialty)) = none :=
    List.find?_eq_none.mpr fun x hx => by simp [(h1 x hx).1]
  have hci : (pre ++ r :: post).find? (rate_ci_match (pyStrip specialty)) = none :=
    List.find?_eq_none.mpr fun x hx => by simp [(h1 x hx).2]
  have hpre : pre.find? (rate_regex_match matcher) = none :=
    List.find?_eq_none.mpr fun x hx => by simp [h2 x hx]
  have hsub : (pre ++ r :: post).find? (rate_regex_match matcher) = some r := by
    rw [List.find?_append, hpre]
    simp [List.find?_cons, h3]
  simp only [calculate_honorarium_rate, hex, hci, hcomp, hsub]
  rfl


theorem dict_get_nat_cases (m : List (String × Nat)) (k : String) (d : Nat) :
    dict_get_nat m k d = d ∨ ∃ p ∈ m, p.2 = dict_get_nat m k d := by
  unfold dict_get_nat
  cases h : m.find? (fun p => p.1 == k) with
  | none => exact Or.inl rfl
  | some p => exact Or.inr ⟨p, List.mem_of_find?_eq_some h, rfl⟩

theorem dict_get_list_cases (m : List (String × List (String × Nat))) (k : String) :
    dict_get_list m k = [] ∨ ∃ p ∈ m, p.2 = dict_get_list m k := by
  unfold dict_get_list
  cases h : m.find? (fun p => p.1 == k) with
  | none => exact Or.inl rfl
  | some p => exact Or.inr ⟨p, List.mem_of_find?_eq_some h, rfl⟩

theorem scoring_values_ok :
    ∀ q ∈ create_scoring_lookup, ∀ p ∈ q.2, p.2 = 0 ∨ p.2 = 2 ∨ p.2 = 4 ∨ p.2 = 6 := by
  decide

theorem sum_le_six_mul_length (l : List Nat) (h : ∀ x ∈ l, x ≤ 6) :
    l.sum ≤ 6 * l.length := by
  induction l with
  | nil => simp
  | cons a t ih =>
    simp only [List.sum_cons, List.length_cons, Nat.mul_succ]
    have ha : a ≤ 6 := h a (List.mem_cons_self a t)
    have ht : t.sum ≤ 6 * t.length := ih fun x hx => h x (List.mem_cons_of_mem a hx)
    omega

theorem calculate_tier_total (n : Nat) :
    calculate_tier n = "Tier 1" ∨ calculate_tier n = "Tier 2" ∨
    calculate_tier n = "Tier 3" ∨ calculate_tier n = "Tier 4" := by
  unfold calculate_tier
  split_ifs <;> simp

/-- C7: scoring is pure and total with defaulting lookups — for every
row each of the 9 criteria yields a score in {0, 2, 4, 6} (blank or
unmatched text defaults to 0), the total score is at most 54, and every
row receives one of the four tiers. -/
theorem calculate_individual_scores_total :
    (∀ row : Row,
      (calculate_individual_scores create_scoring_lookup row).length = 9 ∧
      (∀ x ∈ calculate_individual_scores create_scoring_lookup row,
        x = 0 ∨ x = 2 ∨ x = 4 ∨ x = 6) ∧
      (calculate_individual_scores create_scoring_lookup row).sum ≤ 54 ∧
      (calculate_tier (calculate_individual_scores create_scoring_lookup row).sum = "Tier 1" ∨
       calculate_tier (calculate_individual_scores create_scoring_lookup row).sum = "Tier 2" ∨
       calculate_tier (calculate_individual_scores create_scoring_lookup row).sum = "Tier 3" ∨
       calculate_tier (calculate_individual_scores create_scoring_lookup row).sum = "Tier 4")) ∧
    (∀ (row : Row) (c : String × String), c ∈ scoring_criteria →
      (∀ p ∈ dict_get_list create_scoring_lookup c.2, p.1 ≠ pyStrip (pyRowGet row c.1)) →
      dict_get_nat (dict_get_list create_scoring_lookup c.2) (pyStrip (pyRowGet row c.1)) 0 = 0) ∧
    calculate_individual_scores create_scoring_lookup [] = [0, 0, 0, 0, 0, 0, 0, 0, 0] := by
  have hmem : ∀ (row : Row) (x : Nat),
      x ∈ calculate_individual_scores create_scoring_lookup row →
      x = 0 ∨ x = 2 ∨ x = 4 ∨ x = 6 := by
    intro row x hx
    unfold calculate_individual_scores at hx
    obtain ⟨c, _, rfl⟩ := List.mem_map.mp hx
    rcases dict_get_nat_cases (dict_get_list create_scoring_lookup c.2)
      (pyStrip (pyRowGet row c.1)) 0 with h | ⟨p, hp, hpv⟩
    · exact Or.inl h
    · rcases dict_get_list_cases create_scoring_lookup c.2 with h0 | ⟨q, hq, hqv⟩
      · rw [h0] at hp
        exact absurd hp (List.not_mem_nil p)
      · rw [← hpv]
        exact scoring_values_ok q hq p (hqv ▸ hp)
  refine ⟨fun row => ⟨?_, hmem row, ?_, calculate_tier_total _⟩, ?_, by decide⟩
  · unfold calculate_individual_scores
    simp [scoring_criteria]
  · have h6 : ∀ x ∈ calculate_individual_scores create_scoring_lookup row, x ≤ 6 := by
      intro x hx
      rcases hmem row x hx with h | h | h | h <;> omega
    have := sum_le_six_mul_length _ h6
    have hlen : (calculate_individual_scores create_scoring_lookup row).length = 9 := by
      unfold calculate_individual_scores
      simp [scoring_criteria]
    rw [hlen] at this
    omega
  · intro row c _ hnone
    unfold dict_get_nat
    cases h : (dict_get_list create_scoring_lookup c.2).find?
        (fun p => p.1 == pyStrip (pyRowGet row c.1)) with
    | none => rfl
    | some p =>
      have hp := List.mem_of_find?_eq_some h
      have hkey := List.find?_some h
      exact absurd (by simpa using hkey) (hnone p hp)

/-- Witness for `calculate_individual_scores_total`: an unrecognized
geographic-influence answer scores 0. -/
theorem calculate_individual_scores_total_witness :
    dict_get_nat (dict_get_list create_scoring_lookup "geographical_reach")
      (pyStrip (pyRowGet
        [("Geographic influence as a Key Opinion Leader.", some "Galactic Influence")]
        "Geographic influence as a Key Opinion Leader.")) 0 = 0 :=
  calculate_individual_scores_total.2.1
    [("Geographic influence as a Key Opinion Leader.", some "Galactic Influence")]
    ("Geographic influence as a Key Opinion Leader.", "geographical_reach")
    (by decide) (by decide)

theorem getCell_cons (p : String × Option String) (t : Row) (c : String) :
    getCell (p :: t) c = if p.1 == c then p.2 else getCell t c := by
  unfold getCell
  rw [List.find?_cons]
  cases h : (p.1 == c) <;> simp [h]

theorem getCell_map_update (l : Row) (c : String) (v : Option String) :
    getCell (l.map (fun p => if p.1 == c then (p.1, v) else p)) c =
      match l.find? (fun p => p.1 == c) with
      | some _ => v
      | none => none := by
  induction l with
  | nil => rfl
  | cons p t ih =>
    rw [List.map_cons, List.find?_cons]
    by_cases h : (p.1 == c) = true
    · rw [if_pos h, getCell_cons]
      simp [h]
    · rw [if_neg h, getCell_cons]
      have h' : (p.1 == c) = false := by simpa using h
      simp only [h']
      rw [if_neg (by simp [h'])]
      exact ih

theorem getCell_map_update_other (l : Row) (c c' : String) (v : Option String) (h : c' ≠ c) :
    getCell (l.map (fun p => if p.1 == c then (p.1, v) else p)) c' = getCell l c' := by
  induction l with
  | nil => rfl
  | cons p t ih =>
    rw [List.map_cons]
    by_cases hpc : (p.1 == c) = true
    · have hp : p.1 = c := by simpa using hpc
      rw [if_pos hpc, getCell_cons, getCell_cons]
      have hpc' : (p.1 == c') = false := by
        simp only [beq_eq_false_iff_ne]
        rw [hp]
        exact Ne.symm h
      dsimp only
      rw [hpc']
      simp only [Bool.false_eq_true, if_false]
      exact ih
    · rw [if_neg hpc, getCell_cons, getCell_cons]
      by_cases hc' : (p.1 == c') = true
      · rw [hc']
        simp
      · have hc'' : (p.1 == c') = false := by simpa using hc'
        rw [hc'']
        simp only [Bool.false_eq_true, if_false]
        exact ih

theorem getCell_setCell_same (row : Row) (c : String) (v : Option String) :
    getCell (setCell row c v) c = v := by
  unfold setCell
  by_cases h : (List.find? (fun p => p.1 == c) row).isSome = true
  · rw [if_pos h, getCell_map_update]
    obtain ⟨p, hp⟩ := Option.isSome_iff_exists.mp h
    rw [hp]
  · rw [if_neg h]
    unfold getCell
    rw [List.find?_append]
    cases hfind : List.find? (fun p => p.1 == c) row with
    | some p => exact absurd (by simp [hfind]) h
    | none => simp [List.find?_cons]

theorem getCell_setCell_other (row : Row) (c c' : String) (v : Option String) (h : c' ≠ c) :
    getCell (setCell row c v) c' = getCell row c' := by
  unfold setCell
  by_cases hs : (List.find? (fun p => p.1 == c) row).isSome = true
  · rw [if_pos hs]
    exact getCell_map_update_other row c c' v h
  · rw [if_neg hs]
    unfold getCell
    rw [List.find?_append]
    have hcc : (c == c') = false := by
      simp only [beq_eq_false_iff_ne]
      exact Ne.symm h
    have hone : List.find? (fun p => p.1 == c') [(c, v)] = none := by
      simp [List.find?_cons, hcc]
    rw [hone]
    cases List.find? (fun p => p.1 == c') row <;> rfl

theorem getCell_copy_fields (fmv_cols matched_cols : List String) (fr r : Row) (c : String) :
    getCell (copy_fields fmv_cols matched_cols fr r) c =
      if c ∈ matched_cols ∧ (fmv_cols.contains c && (getCell r c).isSome) = true
      then getCell r c else getCell fr c := by
  have main : ∀ (L : List String) (acc : Row),
      getCell (L.foldl (fun acc2 c2 =>
        if fmv_cols.contains c2 && (getCell r c2).isSome then setCell acc2 c2 (getCell r c2)
        else acc2) acc) c =
      if c ∈ L ∧ (fmv_cols.contains c && (getCell r c).isSome) = true then getCell r c
      else getCell acc c := by
    intro L
    induction L with
    | nil => intro acc; simp
    | cons a L ih =>
      intro acc
      rw [List.foldl_cons, ih]
      by_cases hmem : c ∈ L ∧ (fmv_cols.contains c && (getCell r c).isSome) = true
      · rw [if_pos hmem, if_pos ⟨List.mem_cons_of_mem a hmem.1, hmem.2⟩]
      · rw [if_neg hmem]
        by_cases hac : a = c
        · subst hac
          by_cases hguard : (fmv_cols.contains a && (getCell r a).isSome) = true
          · rw [if_pos hguard, getCell_setCell_same, if_pos ⟨List.mem_cons_self a L, hguard⟩]
          · rw [if_neg hguard, if_neg fun hcontra => hguard hcontra.2]
        · have hgoal : ¬(c ∈ a :: L ∧ (fmv_cols.contains c && (getCell r c).isSome) = true) := by
            intro hcontra
            rcases List.mem_cons.mp hcontra.1 with h | h
            · exact hac h.symm
            · exact hmem ⟨h, hcontra.2⟩
          rw [if_neg hgoal]
          by_cases hguard : (fmv_cols.contains a && (getCell r a).isSome) = true
          · rw [if_pos hguard, getCell_setCell_other acc a c _ fun h => hac h.symm]
          · rw [if_neg hguard]
  exact main matched_cols fr

theorem rowKey_copy_fields (fmv_cols matched_cols : List String) (fr r : Row)
    (h : rowKey fr = clean_email (getCell r "HCP Email")) :
    rowKey (copy_fields fmv_cols matched_cols fr r) = rowKey fr := by
  unfold rowKey
  rw [getCell_copy_fields]
  split_ifs with hcond
  · exact h.symm
  · rfl

theorem getCell_padRow (fc mc : List String) (r : Row) (c : String) (h : c ∈ fc) :
    getCell (padRow fc mc r) c = if mc.contains c then getCell r c else none := by
  unfold padRow
  induction fc with
  | nil => exact absurd h (List.not_mem_nil c)
  | cons a t ih =>
    rw [List.map_cons, getCell_cons]
    by_cases hac : (a == c) = true
    · have : a = c := by simpa using hac
      subst this
      rw [if_pos hac]
    · have hac' : (a == c) = false := by simpa using hac
      rw [hac']
      simp only [if_false, Bool.false_eq_true]
      rcases List.mem_cons.mp h with rfl | h'
      · simp at hac
      · exact ih h'

theorem rowKey_setCell_dvl (fr : Row) (v : Option String) :
    rowKey (setCell fr dvl_code_col v) = rowKey fr := by
  unfold rowKey
  rw [getCell_setCell_other fr dvl_code_col "HCP Email" v (by decide)]

theorem getCell_setCell_dvl_email (fr : Row) (v : Option String) :
    getCell (setCell fr dvl_code_col v) "HCP Email" = getCell fr "HCP Email" :=
  getCell_setCell_other fr dvl_code_col "HCP Email" v (by decide)

theorem backfill_head_new1_key (fmv_cols matched_cols : List String) (fr r : Row)
    (hcr : rowKey fr = clean_email (getCell r "HCP Email")) :
    rowKey (backfill_head_new1 fmv_cols matched_cols fr r) = rowKey fr := by
  simp only [backfill_head_new1]
  split_ifs with hd hy1 hy2
  · rw [rowKey_copy_fields fmv_cols matched_cols _ r
      ((rowKey_setCell_dvl fr _).trans hcr)]
    exact rowKey_setCell_dvl fr _
  · exact rowKey_setCell_dvl fr _
  · exact rowKey_copy_fields fmv_cols matched_cols fr r hcr
  · rfl

theorem backfill_head_new1_email (fmv_cols matched_cols : List String) (fr r : Row) :
    getCell (backfill_head_new1 fmv_cols matched_cols fr r) "HCP Email" =
      getCell fr "HCP Email" ∨
    (getCell (backfill_head_new1 fmv_cols matched_cols fr r) "HCP Email" =
      getCell r "HCP Email" ∧ (getCell r "HCP Email").isSome = true) := by
  have hsome_of : ∀ h : ("HCP Email" ∈ matched_cols ∧
      (fmv_cols.contains "HCP Email" && (getCell r "HCP Email").isSome) = true),
      (getCell r "HCP Email").isSome = true := by
    intro h
    have := h.2
    rw [Bool.and_eq_true] at this
    exact this.2
  simp only [backfill_head_new1]
  split_ifs with hd hy1 hy2
  · rw [getCell_copy_fields]
    split_ifs with hcond
    · exact Or.inr ⟨rfl, hsome_of hcond⟩
    · exact Or.inl (getCell_setCell_dvl_email fr _)
  · exact Or.inl (getCell_setCell_dvl_email fr _)
  · rw [getCell_copy_fields]
    split_ifs with hcond
    · exact Or.inr ⟨rfl, hsome_of hcond⟩
    · exact Or.inl rfl
  · exact Or.inl rfl

theorem backfill_step_new1_key_map (fmv_cols matched_cols : List String) (r : Row) :
    ∀ rows : List Row,
      (backfill_step_new1 fmv_cols matched_cols rows r).map rowKey = rows.map rowKey := by
  intro rows
  induction rows with
  | nil => rfl
  | cons fr rest ih =>
    unfold backfill_step_new1
    by_cases hc : (rowKey fr == clean_email (getCell r "HCP Email")) = true
    · have hcr : rowKey fr = clean_email (getCell r "HCP Email") := by simpa using hc
      rw [if_pos hc]
      simp only [List.map_cons]
      rw [backfill_head_new1_key fmv_cols matched_cols fr r hcr]
    · rw [if_neg hc]
      simp only [List.map_cons, ih]

theorem backfill_step_new1_length (fmv_cols matched_cols : List String) (r : Row)
    (rows : List Row) :
    (backfill_step_new1 fmv_cols matched_cols rows r).length = rows.length := by
  have := congrArg List.length (backfill_step_new1_key_map fmv_cols matched_cols r rows)
  simpa using this

theorem backfill_step_new1_emails (fmv_cols matched_cols : List String) (r : Row) (v : String) :
    ∀ rows : List Row,
      v ∈ (rows.filterMap (fun fr => getCell fr "HCP Email")).map
        (fun e => clean_email (some e)) →
      v ∈ ((backfill_step_new1 fmv_cols matched_cols rows r).filterMap
        (fun fr => getCell fr "HCP Email")).map (fun e => clean_email (some e)) := by
  have hfm_none : ∀ (a : Row) (l : List Row), getCell a "HCP Email" = none →
      (a :: l).filterMap (fun x => getCell x "HCP Email") =
      l.filterMap (fun x => getCell x "HCP Email") := by
    intro a l h
    rw [List.filterMap_cons, h]
  have hfm_some : ∀ (a : Row) (l : List Row) (s : String), getCell a "HCP Email" = some s →
      (a :: l).filterMap (fun x => getCell x "HCP Email") =
      s :: l.filterMap (fun x => getCell x "HCP Email") := by
    intro a l s h
    rw [List.filterMap_cons, h]
  intro rows
  induction rows with
  | nil => exact fun h => h
  | cons fr rest ih =>
    intro hv
    unfold backfill_step_new1
    by_cases hc : (rowKey fr == clean_email (getCell r "HCP Email")) = true
    · have hcr : rowKey fr = clean_email (getCell r "HCP Email") := by simpa using hc
      rw [if_pos hc]
      rcases hget : getCell fr "HCP Email" with _ | s
      · rw [hfm_none fr rest hget] at hv
        rcases hget2 : getCell (backfill_head_new1 fmv_cols matched_cols fr r)
            "HCP Email" with _ | s2
        · rw [hfm_none _ rest hget2]
          exact hv
        · rw [hfm_some _ rest s2 hget2, List.map_cons]
          exact List.mem_cons_of_mem _ hv
      · rw [hfm_some fr rest s hget, List.map_cons] at hv
        rcases List.mem_cons.mp hv with heq | hrest
        · rcases backfill_head_new1_email fmv_cols matched_cols fr r with h2 | ⟨h2, hsome⟩
          · rw [hget] at h2
            rw [hfm_some _ rest s h2, List.map_cons, heq]
            exact List.mem_cons_self _ _
          · obtain ⟨s1, hs1⟩ := Option.isSome_iff_exists.mp hsome
            rw [hs1] at h2
            have hveq : v = clean_email (some s1) := by
              have e1 : clean_email (some s) = rowKey fr := by
                unfold rowKey
                rw [hget]
              rw [heq, e1, hcr, hs1]
            rw [hfm_some _ rest s1 h2, List.map_cons, hveq]
            exact List.mem_cons_self _ _
        · rcases hget2 : getCell (backfill_head_new1 fmv_cols matched_cols fr r)
              "HCP Email" with _ | s2
          · rw [hfm_none _ rest hget2]
            exact hrest
          · rw [hfm_some _ rest s2 hget2, List.map_cons]
            exact List.mem_cons_of_mem _ hrest
    · rw [if_neg hc]
      rcases hget : getCell fr "HCP Email" with _ | s
      · rw [hfm_none fr rest hget] at hv
        rw [hfm_none fr _ hget]
        exact ih hv
      · rw [hfm_some fr rest s hget, List.map_cons] at hv
        rw [hfm_some fr _ s hget, List.map_cons]
        rcases List.mem_cons.mp hv with rfl | hrest
        · exact List.mem_cons_self _ _
        · exact List.mem_cons_of_mem _ (ih hrest)

theorem foldl_backfill_new1_key_map (fc mc : List String) :
    ∀ (ed : List Row) (rows : List Row),
      ((ed.foldl (fun acc r => backfill_step_new1 fc mc acc r) rows).map rowKey) =
        rows.map rowKey := by
  intro ed
  induction ed with
  | nil => intro rows; rfl
  | cons r ed ih =>
    intro rows
    rw [List.foldl_cons, ih, backfill_step_new1_key_map]

theorem foldl_backfill_new1_length (fc mc : List String) (ed : List Row) (rows : List Row) :
    (ed.foldl (fun acc r => backfill_step_new1 fc mc acc r) rows).length = rows.length := by
  have := congrArg List.length (foldl_backfill_new1_key_map fc mc ed rows)
  simpa using this

theorem foldl_backfill_new1_emails (fc mc : List String) (v : String) :
    ∀ (ed : List Row) (rows : List Row),
      v ∈ (rows.filterMap (fun x => getCell x "HCP Email")).map
        (fun e => clean_email (some e)) →
      v ∈ (((ed.foldl (fun acc r => backfill_step_new1 fc mc acc r) rows)).filterMap
        (fun x => getCell x "HCP Email")).map (fun e => clean_email (some e)) := by
  intro ed
  induction ed with
  | nil => intro rows h; exact h
  | cons r ed ih =>
    intro rows h
    rw [List.foldl_cons]
    exact ih _ (backfill_step_new1_emails fc mc r v rows h)

theorem rowKey_padRow (fc mc : List String) (r : Row) (hf : "HCP Email" ∈ fc)
    (hm : mc.contains "HCP Email" = true) :
    rowKey (padRow fc mc r) = rowKey r := by
  unfold rowKey
  rw [getCell_padRow fc mc r _ hf, if_pos hm]

theorem rowKey_mem_emails (rows : List Row) (fr : Row) (h : fr ∈ rows)
    (hne : rowKey fr ≠ "") :
    rowKey fr ∈ (rows.filterMap (fun x => getCell x "HCP Email")).map
      (fun e => clean_email (some e)) := by
  rcases hget : getCell fr "HCP Email" with _ | s
  · exfalso
    apply hne
    unfold rowKey
    rw [hget]
    rfl
  · apply List.mem_map.mpr
    refine ⟨s, List.mem_filterMap.mpr ⟨fr, h, hget⟩, ?_⟩
    unfold rowKey
    rw [hget]

/-- C2 (amended): the `src/FMVcalnew1.py` merger never appends a record
whose cleaned identity already occurs among the target's non-null
identities, so when the target's non-empty identity keys are unique AND
the matched records carry pairwise-distinct identity keys and non-null
identity cells, the merged table's non-empty identity keys remain
unique; and merging the same matched records a second time into the
merged table appends zero rows. -/
theorem update_fmv_calculator_unique_idempotent :
    ∀ (fmv_cols : List String) (fmv_rows : List Row) (matched_cols : List String)
      (matched_rows : List Row),
      "HCP Email" ∈ fmv_cols → "HCP Email" ∈ matched_cols →
      (∀ r ∈ matched_rows, (getCell r "HCP Email").isSome = true) →
      ((fmv_rows.map rowKey).filter (fun k => k != "")).Nodup →
      (matched_rows.map rowKey).Nodup →
      (((update_fmv_calculator fmv_cols fmv_rows matched_cols matched_rows).map rowKey).filter
        (fun k => k != "")).Nodup ∧
      (update_fmv_calculator fmv_cols
          (update_fmv_calculator fmv_cols fmv_rows matched_cols matched_rows)
          matched_cols matched_rows).length =
        (update_fmv_calculator fmv_cols fmv_rows matched_cols matched_rows).length := by
  intro fc fmv mc matched hf hm hsome hnf hnm
  have hmbool : mc.contains "HCP Email" = true := by
    simp [List.contains, hm]
  cases matched with
  | nil =>
    constructor
    · simpa [update_fmv_calculator] using hnf
    · simp [update_fmv_calculator]
  | cons m ms =>
    have hout : update_fmv_calculator fc fmv mc (m :: ms) =
        ((m :: ms).filter (fun r =>
          ((fmv.filterMap (fun x => getCell x "HCP Email")).map
            (fun e => clean_email (some e))).contains
              (clean_email (getCell r "HCP Email")))).foldl
          (fun acc r => backfill_step_new1 fc mc acc r) fmv ++
        ((m :: ms).filter (fun r =>
          !(((fmv.filterMap (fun x => getCell x "HCP Email")).map
            (fun e => clean_email (some e))).contains
              (clean_email (getCell r "HCP Email"))))).map (padRow fc mc) := rfl
    set E := (fmv.filterMap (fun x => getCell x "HCP Email")).map
      (fun e => clean_email (some e)) with hE
    set new_data := (m :: ms).filter (fun r =>
      !(E.contains (clean_email (getCell r "HCP Email")))) with hnew
    set ex_data := (m :: ms).filter (fun r =>
      E.contains (clean_email (getCell r "HCP Email"))) with hex
    have hkeys : (update_fmv_calculator fc fmv mc (m :: ms)).map rowKey =
        fmv.map rowKey ++ new_data.map rowKey := by
      rw [hout, List.map_append, foldl_backfill_new1_key_map, List.map_map]
      congr 1
      apply List.map_congr_left
      intro r _
      exact rowKey_padRow fc mc r hf hmbool
    constructor
    · rw [hkeys, List.filter_append]
      apply List.Nodup.append
      · exact hnf
      · apply List.Nodup.sublist (List.filter_sublist _)
        apply List.Nodup.sublist (List.Sublist.map rowKey (List.filter_sublist _))
        exact hnm
      · intro k hk1 hk2
        obtain ⟨hk1m, hk1ne⟩ := List.mem_filter.mp hk1
        obtain ⟨hk2m, _⟩ := List.mem_filter.mp hk2
        obtain ⟨fr, hfr, hfrk⟩ := List.mem_map.mp hk1m
        obtain ⟨r, hr, hrk⟩ := List.mem_map.mp hk2m
        have hkne : k ≠ "" := by simpa using hk1ne
        have hkE : k ∈ E := by
          rw [← hfrk]
          exact rowKey_mem_emails fmv fr hfr (hfrk ▸ hkne)
        obtain ⟨hrmem, hrflt⟩ := List.mem_filter.mp hr
        rw [Bool.not_eq_true'] at hrflt
        have hcontr : E.contains (clean_email (getCell r "HCP Email")) = true := by
          simp only [List.contains, List.elem_eq_mem, decide_eq_true_eq]
          have hrk2 : clean_email (getCell r "HCP Email") = k := hrk
          exact hrk2 ▸ hkE
        exact Bool.false_ne_true (hrflt.symm.trans hcontr)
    · -- second run appends nothing
      set out := update_fmv_calculator fc fmv mc (m :: ms) with hout2
      have hmemE2 : ∀ r ∈ (m :: ms), clean_email (getCell r "HCP Email") ∈
          (out.filterMap (fun x => getCell x "HCP Email")).map
            (fun e => clean_email (some e)) := by
        intro r hr
        have houtsplit : out = ex_data.foldl (fun acc r => backfill_step_new1 fc mc acc r) fmv ++
            new_data.map (padRow fc mc) := hout
        rw [houtsplit, List.filterMap_append, List.map_append]
        by_cases hc : E.contains (clean_email (getCell r "HCP Email")) = true
        · apply List.mem_append_left
          apply foldl_backfill_new1_emails
          have hmemE : clean_email (getCell r "HCP Email") ∈ E := by
            simpa [List.contains] using hc
          exact hmemE
        · apply List.mem_append_right
          have hrn : r ∈ new_data := by
            refine List.mem_filter.mpr ⟨hr, ?_⟩
            have hcf : E.contains (clean_email (getCell r "HCP Email")) = false := by
              simpa using hc
            rw [hcf]
            rfl
          obtain ⟨s, hs⟩ := Option.isSome_iff_exists.mp (hsome r hr)
          apply List.mem_map.mpr
          refine ⟨s, ?_, by rw [hs]⟩
          apply List.mem_filterMap.mpr
          refine ⟨padRow fc mc r, List.mem_map.mpr ⟨r, hrn, rfl⟩, ?_⟩
          rw [getCell_padRow fc mc r _ hf, if_pos hmbool, hs]
      have hnew2 : (m :: ms).filter (fun r =>
          !(((out.filterMap (fun x => getCell x "HCP Email")).map
            (fun e => clean_email (some e))).contains
              (clean_email (getCell r "HCP Email")))) = [] := by
        apply List.filter_eq_nil_iff.mpr
        intro r hr
        have := hmemE2 r hr
        simp [List.contains, this]
      have hout3 : update_fmv_calculator fc out mc (m :: ms) =
          ((m :: ms).filter (fun r =>
            ((out.filterMap (fun x => getCell x "HCP Email")).map
              (fun e => clean_email (some e))).contains
                (clean_email (getCell r "HCP Email")))).foldl
            (fun acc r => backfill_step_new1 fc mc acc r) out ++
          ((m :: ms).filter (fun r =>
            !(((out.filterMap (fun x => getCell x "HCP Email")).map
              (fun e => clean_email (some e))).contains
                (clean_email (getCell r "HCP Email"))))).map (padRow fc mc) := rfl
      rw [hout3, hnew2]
      simp only [List.map_nil, List.append_nil]
      exact foldl_backfill_new1_length fc mc _ out

/-- Witness for `update_fmv_calculator_unique_idempotent` on concrete
one-row tables. -/
theorem update_fmv_calculator_unique_idempotent_witness :
    ("HCP Email" ∈ ["HCP Email"]) ∧
    ((((([[("HCP Email", some "b@x.com")]] : List Row).map rowKey).filter
        (fun k => k != ""))).Nodup) ∧
    ((((update_fmv_calculator ["HCP Email"] [[("HCP Email", some "b@x.com")]] ["HCP Email"]
        [[("HCP Email", some "a@x.com")]]).map rowKey).filter (fun k => k != "")).Nodup ∧
      (update_fmv_calculator ["HCP Email"]
          (update_fmv_calculator ["HCP Email"] [[("HCP Email", some "b@x.com")]] ["HCP Email"]
            [[("HCP Email", some "a@x.com")]])
          ["HCP Email"] [[("HCP Email", some "a@x.com")]]).length =
        (update_fmv_calculator ["HCP Email"] [[("HCP Email", some "b@x.com")]] ["HCP Email"]
          [[("HCP Email", some "a@x.com")]]).length) :=
  ⟨by decide, by decide,
   update_fmv_calculator_unique_idempotent ["HCP Email"] [[("HCP Email", some "b@x.com")]]
     ["HCP Email"] [[("HCP Email", some "a@x.com")]]
     (by decide) (by decide) (by decide) (by decide) (by decide)⟩

/-- C2 counterexample: with two matched records sharing one normalized
identity that is absent from the target, the merger appends both, so
the merged table's identity keys are not unique even though the target
(empty) trivially had unique keys. -/
theorem update_fmv_calculator_duplicate_matched :
    ¬ (((update_fmv_calculator ["HCP Email"] [] ["HCP Email"]
        [[("HCP Email", some "a@x.com")], [("HCP Email", some "a@x.com")]]).map rowKey).filter
        (fun k => k != "")).Nodup := by
  decide

theorem backfill_step_py_locate (fmv_cols matched_cols : List String) (r : Row) :
    ∀ (pre : List Row) (post : List Row) (fr : Row),
      (∀ x ∈ pre, rowKey x ≠ clean_email (getCell r "HCP Email")) →
      rowKey fr = clean_email (getCell r "HCP Email") →
      backfill_step_py fmv_cols matched_cols (pre ++ fr :: post) r =
        pre ++ backfill_head_py fmv_cols matched_cols fr r :: post := by
  intro pre
  induction pre with
  | nil =>
    intro post fr _ hfr
    simp only [List.nil_append]
    unfold backfill_step_py
    rw [if_pos (by simpa using hfr)]
  | cons a pre ih =>
    intro post fr hpre hfr
    simp only [List.cons_append]
    unfold backfill_step_py
    rw [if_neg (by simpa using hpre a (List.mem_cons_self a pre))]
    rw [ih post fr (fun x hx => hpre x (List.mem_cons_of_mem a hx)) hfr]

theorem backfill_step_new1_locate (fmv_cols matched_cols : List String) (r : Row) :
    ∀ (pre : List Row) (post : List Row) (fr : Row),
      (∀ x ∈ pre, rowKey x ≠ clean_email (getCell r "HCP Email")) →
      rowKey fr = clean_email (getCell r "HCP Email") →
      backfill_step_new1 fmv_cols matched_cols (pre ++ fr :: post) r =
        pre ++ backfill_head_new1 fmv_cols matched_cols fr r :: post := by
  intro pre
  induction pre with
  | nil =>
    intro post fr _ hfr
    simp only [List.nil_append]
    unfold backfill_step_new1
    rw [if_pos (by simpa using hfr)]
  | cons a pre ih =>
    intro post fr hpre hfr
    simp only [List.cons_append]
    unfold backfill_step_new1
    rw [if_neg (by simpa using hpre a (List.mem_cons_self a pre))]
    rw [ih post fr (fun x hx => hpre x (List.mem_cons_of_mem a hx)) hfr]

/-- C3 (amended): the `src/FMV.py` merger back-fills an existing target
row if and only if BOTH the target row's years-of-experience trigger is
blank AND the incoming record's trigger field is non-blank; when it
back-fills, every non-blank incoming field in a column shared with the
target is copied over, overwriting the target value whether blank or
not, while blank incoming fields and unshared columns leave the target
cells unchanged; when the trigger is populated (or the incoming trigger
is blank) the row is left untouched.  The `src/FMVcalnew1.py` variant
additionally fills a blank DVL-code cell even when the trigger is
populated. -/
theorem backfill_trigger_semantics :
    (∀ (fmv_cols matched_cols : List String) (pre post : List Row) (fr r : Row),
      (∀ x ∈ pre, rowKey x ≠ clean_email (getCell r "HCP Email")) →
      rowKey fr = clean_email (getCell r "HCP Email") →
      (getCell fr years_col_py = none → (getCell r years_col_py).isSome = true →
        backfill_step_py fmv_cols matched_cols (pre ++ fr :: post) r =
          pre ++ copy_fields fmv_cols matched_cols fr r :: post) ∧
      ((getCell fr years_col_py).isSome = true ∨ getCell r years_col_py = none →
        backfill_step_py fmv_cols matched_cols (pre ++ fr :: post) r =
          pre ++ fr :: post)) ∧
    (∀ (fmv_cols matched_cols : List String) (fr r : Row) (c : String),
      getCell (copy_fields fmv_cols matched_cols fr r) c =
        if c ∈ matched_cols ∧ (fmv_cols.contains c && (getCell r c).isSome) = true
        then getCell r c else getCell fr c) ∧
    (∀ (fmv_cols matched_cols : List String) (pre post : List Row) (fr r : Row),
      (∀ x ∈ pre, rowKey x ≠ clean_email (getCell r "HCP Email")) →
      rowKey fr = clean_email (getCell r "HCP Email") →
      (getCell fr years_col_new1).isSome = true →
      getCell fr dvl_code_col = none → (getCell r dvl_code_col).isSome = true →
      backfill_step_new1 fmv_cols matched_cols (pre ++ fr :: post) r =
        pre ++ setCell fr dvl_code_col (getCell r dvl_code_col) :: post) := by
  refine ⟨?_, fun fc mc fr r c => getCell_copy_fields fc mc fr r c, ?_⟩
  · intro fc mc pre post fr r hpre hfr
    constructor
    · intro hy1 hy2
      rw [backfill_step_py_locate fc mc r pre post fr hpre hfr]
      unfold backfill_head_py
      rw [if_pos]
      rw [hy1, hy2]
      rfl
    · intro hy
      rw [backfill_step_py_locate fc mc r pre post fr hpre hfr]
      unfold backfill_head_py
      rw [if_neg]
      intro hcontra
      rw [Bool.and_eq_true] at hcontra
      rcases hy with hy | hy
      · rw [Option.isNone_iff_eq_none] at hcontra
        rw [hcontra.1] at hy
        simp at hy
      · rw [hy] at hcontra
        simp at hcontra
  · intro fc mc pre post fr r hpre hfr hys hdn hds
    rw [backfill_step_new1_locate fc mc r pre post fr hpre hfr]
    simp only [backfill_head_new1]
    have hd : ((getCell fr dvl_code_col).isNone && (getCell r dvl_code_col).isSome) = true := by
      rw [hdn, hds]
      rfl
    rw [if_pos hd]
    have hyneg : ¬(((getCell (setCell fr dvl_code_col (getCell r dvl_code_col))
        years_col_new1).isNone && (getCell r years_col_new1).isSome) = true) := by
      rw [getCell_setCell_other fr dvl_code_col years_col_new1 _ (by decide)]
      intro hcontra
      rw [Bool.and_eq_true] at hcontra
      have h1 := hcontra.1
      rw [Option.isNone_iff_eq_none] at h1
      rw [h1] at hys
      simp at hys
    rw [if_neg hyneg]

/-- Witness for `backfill_trigger_semantics`: blank target trigger and
populated incoming trigger cause the copy. -/
theorem backfill_trigger_semantics_witness :
    backfill_step_py ["HCP Email", years_col_py] ["HCP Email", years_col_py]
      [[("HCP Email", some "a@x.com"), (years_col_py, none)]]
      [("HCP Email", some "a@x.com"), (years_col_py, some "15+ years of experience")] =
      [copy_fields ["HCP Email", years_col_py] ["HCP Email", years_col_py]
        [("HCP Email", some "a@x.com"), (years_col_py, none)]
        [("HCP Email", some "a@x.com"), (years_col_py, some "15+ years of experience")]] :=
  (backfill_trigger_semantics.1 ["HCP Email", years_col_py] ["HCP Email", years_col_py] [] []
    [("HCP Email", some "a@x.com"), (years_col_py, none)]
    [("HCP Email", some "a@x.com"), (years_col_py, some "15+ years of experience")]
    (by decide) (by decide)).1 (by decide) (by decide)

/-- C3 counterexample: the `src/FMV.py` back-fill overwrites an
existing non-blank target value (`HCP Name` Dr. X becomes Dr. Y), and a
blank target trigger with a blank incoming trigger copies nothing (the
incoming non-blank specialty is NOT back-filled) — refuting both the
"never overwritten" and the "if and only if the trigger is blank"
parts of the claim. -/
theorem backfill_claim_counterexample :
    backfill_step_py ["HCP Email", years_col_py, "HCP Name"]
      ["HCP Email", years_col_py, "HCP Name"]
      [[("HCP Email", some "a@x.com"), (years_col_py, none), ("HCP Name", some "Dr. X")]]
      [("HCP Email", some "a@x.com"), (years_col_py, some "15+ years of experience"),
       ("HCP Name", some "Dr. Y")] =
      [[("HCP Email", some "a@x.com"), (years_col_py, some "15+ years of experience"),
        ("HCP Name", some "Dr. Y")]] ∧
    backfill_step_py ["HCP Email", years_col_py, "Specialty / Super Specialty"]
      ["HCP Email", years_col_py, "Specialty / Super Specialty"]
      [[("HCP Email", some "a@x.com"), (years_col_py, none),
        ("Specialty / Super Specialty", none)]]
      [("HCP Email", some "a@x.com"), (years_col_py, none),
       ("Specialty / Super Specialty", some "Cardiology")] =
      [[("HCP Email", some "a@x.com"), (years_col_py, none),
        ("Specialty / Super Specialty", none)]] := by
  constructor <;> decide

theorem ddkl_subset {α β : Type} [DecidableEq β] (key : α → β) (l : List α) :
    ∀ r ∈ drop_duplicates_keep_last key l, r ∈ l := by
  induction l with
  | nil => intro r hr; exact absurd hr (List.not_mem_nil r)
  | cons a t ih =>
    intro r hr
    unfold drop_duplicates_keep_last at hr
    by_cases hc : ((t.map key).contains (key a)) = true
    · rw [if_pos hc] at hr
      exact List.mem_cons_of_mem a (ih r hr)
    · rw [if_neg hc] at hr
      rcases List.mem_cons.mp hr with rfl | hr'
      · exact List.mem_cons_self r t
      · exact List.mem_cons_of_mem a (ih r hr')

theorem ddkl_nodup {α β : Type} [DecidableEq β] (key : α → β) (l : List α) :
    ((drop_duplicates_keep_last key l).map key).Nodup := by
  induction l with
  | nil => simp [drop_duplicates_keep_last]
  | cons a t ih =>
    unfold drop_duplicates_keep_last
    by_cases hc : ((t.map key).contains (key a)) = true
    · rw [if_pos hc]
      exact ih
    · rw [if_neg hc]
      simp only [List.map_cons, List.nodup_cons]
      refine ⟨?_, ih⟩
      intro hmem
      apply hc
      obtain ⟨r, hr, hrk⟩ := List.mem_map.mp hmem
      have : r ∈ t := ddkl_subset key t r hr
      simp only [List.contains, List.elem_eq_mem, decide_eq_true_eq]
      exact List.mem_map.mpr ⟨r, this, hrk⟩

theorem ddkl_key_mem {α β : Type} [DecidableEq β] (key : α → β) (l : List α) (b : β)
    (hb : b ∈ l.map key) : b ∈ (drop_duplicates_keep_last key l).map key := by
  induction l with
  | nil => exact absurd hb (List.not_mem_nil b)
  | cons a t ih =>
    unfold drop_duplicates_keep_last
    by_cases hc : ((t.map key).contains (key a)) = true
    · rw [if_pos hc]
      rcases List.mem_cons.mp hb with rfl | hb'
      · apply ih
        simpa using hc
      · exact ih hb'
    · rw [if_neg hc]
      rcases List.mem_cons.mp hb with rfl | hb'
      · exact List.mem_cons_self _ _
      · exact List.mem_cons_of_mem _ (ih hb')

theorem ddkl_dominates (l : List PRow) (h : l.Pairwise cvLe) :
    ∀ r' ∈ drop_duplicates_keep_last PRow.email l, ∀ r ∈ l,
      r.email = r'.email → cvLe r r' := by
  induction l with
  | nil => intro r' hr'; exact absurd hr' (List.not_mem_nil r')
  | cons a t ih =>
    intro r' hr' r hr he
    have hpa : ∀ x ∈ t, cvLe a x := (List.pairwise_cons.mp h).1
    have ht : t.Pairwise cvLe := (List.pairwise_cons.mp h).2
    unfold drop_duplicates_keep_last at hr'
    by_cases hc : ((t.map PRow.email).contains a.email) = true
    · rw [if_pos hc] at hr'
      rcases List.mem_cons.mp hr with rfl | hrt
      · exact hpa r' (ddkl_subset PRow.email t r' hr')
      · exact ih ht r' hr' r hrt he
    · rw [if_neg hc] at hr'
      rcases List.mem_cons.mp hr' with rfl | hr''
      · rcases List.mem_cons.mp hr with rfl | hrt
        · exact Or.inr ⟨rfl, le_refl _⟩
        · exfalso
          apply hc
          simp only [List.contains, List.elem_eq_mem, decide_eq_true_eq]
          exact List.mem_map.mpr ⟨r, hrt, he⟩
      · rcases List.mem_cons.mp hr with rfl | hrt
        · exact hpa r' (ddkl_subset PRow.email t r' hr'')
        · exact ih ht r' hr'' r hrt he

/-- C1: the deduplicator keeps at most one row per cleaned e-mail;
every output row stems from an input row with a non-empty cleaned
e-mail and a parseable timestamp; the kept row's timestamp dominates
every parseable timestamp of that identity (so with distinct
timestamps, exactly the maximal one survives, and an identity whose
rows all fail to parse contributes nothing); any identity with a
surviving row does get an output row; and on exact (e-mail, timestamp)
ties the row occurring last after the stable ascending sort is kept. -/
theorem process_cvdump_data_dedupe :
    (∀ (parse : Option String → Option Nat) (rows : List CvRow),
      ((process_cvdump_data parse rows).map PRow.email).Nodup ∧
      (∀ r' ∈ process_cvdump_data parse rows,
        r'.email ≠ "" ∧ r'.time.isSome = true ∧
        ∃ r ∈ rows, clean_email r.hcp_email = r'.email ∧ parse r.start_time = r'.time ∧
          r.rid = r'.rid) ∧
      (∀ r' ∈ process_cvdump_data parse rows, ∀ r ∈ rows,
        clean_email r.hcp_email = r'.email → ∀ t, parse r.start_time = some t →
          t ≤ r'.time.getD 0) ∧
      (∀ e : String, e ≠ "" →
        (∃ r ∈ rows, clean_email r.hcp_email = e ∧ (parse r.start_time).isSome = true) →
        ∃ r' ∈ process_cvdump_data parse rows, r'.email = e)) ∧
    process_cvdump_data (fun c => if c = some "T" then some 5 else none)
      [CvRow.mk (some "a@x.com") (some "T") 0, CvRow.mk (some "a@x.com") (some "T") 1] =
      [PRow.mk "a@x.com" (some 5) 1] := by
  refine ⟨?_, by decide⟩
  intro parse rows
  have hout : process_cvdump_data parse rows =
      drop_duplicates_keep_last PRow.email
        (List.insertionSort cvLe
          (((rows.map (fun r => PRow.mk (clean_email r.hcp_email) (parse r.start_time) r.rid)).filter
              (fun r => r.email != "")).filter (fun r => r.time.isSome))) := rfl
  set f2 := ((rows.map (fun r => PRow.mk (clean_email r.hcp_email) (parse r.start_time) r.rid)).filter
      (fun r => r.email != "")).filter (fun r => r.time.isSome) with hf2
  have hperm : (List.insertionSort cvLe f2).Perm f2 := List.perm_insertionSort cvLe f2
  have hsorted : (List.insertionSort cvLe f2).Pairwise cvLe := List.sorted_insertionSort cvLe f2
  -- membership in f2 unpacked back to the original rows
  have hsrc : ∀ r' ∈ f2,
      r'.email ≠ "" ∧ r'.time.isSome = true ∧
      ∃ r ∈ rows, clean_email r.hcp_email = r'.email ∧ parse r.start_time = r'.time ∧
        r.rid = r'.rid := by
    intro r' hr'
    obtain ⟨hr1, htime⟩ := List.mem_filter.mp hr'
    obtain ⟨hr0, hemail⟩ := List.mem_filter.mp hr1
    obtain ⟨r, hr, hgr⟩ := List.mem_map.mp hr0
    refine ⟨by simpa using hemail, htime, r, hr, ?_, ?_, ?_⟩ <;> rw [← hgr]
  -- membership of a surviving source row in f2
  have hmemf2 : ∀ r ∈ rows, clean_email r.hcp_email ≠ "" → ∀ t, parse r.start_time = some t →
      PRow.mk (clean_email r.hcp_email) (parse r.start_time) r.rid ∈ f2 := by
    intro r hr hne t hp
    refine List.mem_filter.mpr ⟨List.mem_filter.mpr ⟨List.mem_map.mpr ⟨r, hr, rfl⟩, ?_⟩, ?_⟩
    · simpa using hne
    · simp [hp]
  have hddsub : ∀ r' ∈ process_cvdump_data parse rows, r' ∈ f2 := by
    intro r' hr'
    rw [hout] at hr'
    exact (hperm.mem_iff).mp (ddkl_subset PRow.email _ r' hr')
  refine ⟨?_, ?_, ?_, ?_⟩
  · rw [hout]
    exact ddkl_nodup PRow.email _
  · intro r' hr'
    exact hsrc r' (hddsub r' hr')
  · intro r' hr' r hr he t hp
    have hne : clean_email r.hcp_email ≠ "" := by
      rw [he]
      exact (hsrc r' (hddsub r' hr')).1
    have hmem : PRow.mk (clean_email r.hcp_email) (parse r.start_time) r.rid ∈ f2 :=
      hmemf2 r hr hne t hp
    have hmemsorted : PRow.mk (clean_email r.hcp_email) (parse r.start_time) r.rid ∈
        List.insertionSort cvLe f2 := (hperm.mem_iff).mpr hmem
    rw [hout] at hr'
    have hdom := ddkl_dominates _ hsorted r' hr'
      (PRow.mk (clean_email r.hcp_email) (parse r.start_time) r.rid) hmemsorted he
    rcases hdom with hlt | ⟨_, hle⟩
    · rw [he] at hlt
      exact absurd hlt (lt_irrefl r'.email.data)
    · rw [hp] at hle
      simpa using hle
  · intro e hne ⟨r, hr, hce, hsome⟩
    obtain ⟨t, ht⟩ := Option.isSome_iff_exists.mp hsome
    have hmem : PRow.mk (clean_email r.hcp_email) (parse r.start_time) r.rid ∈ f2 :=
      hmemf2 r hr (hce ▸ hne) t ht
    have hkey : e ∈ (List.insertionSort cvLe f2).map PRow.email := by
      apply (hperm.map PRow.email).mem_iff.mpr
      exact List.mem_map.mpr ⟨_, hmem, hce⟩
    have := ddkl_key_mem PRow.email _ e hkey
    rw [hout]
    obtain ⟨r', hr', hre⟩ := List.mem_map.mp this
    exact ⟨r', hr', hre⟩

/-- Witness for `process_cvdump_data_dedupe`: the identity with two
distinct parseable timestamps gets exactly its latest row. -/
theorem process_cvdump_data_dedupe_witness :
    ("a@x.com" ≠ "" ∧
      (∃ r ∈ [CvRow.mk (some "a@x.com") (some "1") 0, CvRow.mk (some "a@x.com") (some "2") 1],
        clean_email r.hcp_email = "a@x.com" ∧
        ((fun c => if c = some "1" then some 1 else if c = some "2" then some 2 else none)
          r.start_time).isSome = true)) ∧
    ∃ r' ∈ process_cvdump_data
        (fun c => if c = some "1" then some 1 else if c = some "2" then some 2 else none)
        [CvRow.mk (some "a@x.com") (some "1") 0, CvRow.mk (some "a@x.com") (some "2") 1],
      r'.email = "a@x.com" :=
  ⟨⟨by decide, by decide⟩,
   ((process_cvdump_data_dedupe.1
      (fun c => if c = some "1" then some 1 else if c = some "2" then some 2 else none)
      [CvRow.mk (some "a@x.com") (some "1") 0,
       CvRow.mk (some "a@x.com") (some "2") 1]).2.2.2 "a@x.com" (by decide) (by decide))⟩

theorem match_loop_length (cvdump : List PRow) (l : List (String × Option String)) :
    (match_loop cvdump l).1.length + (match_loop cvdump l).2.length = l.length := by
  induction l with
  | nil => rfl
  | cons d rest ih =>
    unfold match_loop
    cases h : cvdump.find? (fun c => c.email == d.1) with
    | some c =>
      simp only [h, List.length_cons]
      omega
    | none =>
      simp only [h, List.length_cons]
      omega

theorem match_loop_matched_mem (cvdump : List PRow) (l : List (String × Option String))
    (hl : ∀ d ∈ l, d.1 ≠ "") :
    ∀ m ∈ (match_loop cvdump l).1,
      m.hcp_email ≠ "" ∧ ∃ c ∈ cvdump, c.email = m.hcp_email := by
  induction l with
  | nil => intro m hm; exact absurd hm (List.not_mem_nil m)
  | cons d rest ih =>
    intro m hm
    have hl' : ∀ x ∈ rest, x.1 ≠ "" := fun x hx => hl x (List.mem_cons_of_mem d hx)
    unfold match_loop at hm
    cases h : cvdump.find? (fun c => c.email == d.1) with
    | some c =>
      rw [h] at hm
      rcases List.mem_cons.mp hm with rfl | hm'
      · refine ⟨hl d (List.mem_cons_self d rest), c, List.mem_of_find?_eq_some h, ?_⟩
        simpa using List.find?_some h
      · exact ih hl' m hm'
    | none =>
      rw [h] at hm
      exact ih hl' m hm

theorem match_loop_missing_mem (cvdump : List PRow) (l : List (String × Option String))
    (hl : ∀ d ∈ l, d.1 ≠ "") :
    ∀ m ∈ (match_loop cvdump l).2,
      m.hcp_email ≠ "" ∧ ¬ ∃ c ∈ cvdump, c.email = m.hcp_email := by
  induction l with
  | nil => intro m hm; exact absurd hm (List.not_mem_nil m)
  | cons d rest ih =>
    intro m hm
    have hl' : ∀ x ∈ rest, x.1 ≠ "" := fun x hx => hl x (List.mem_cons_of_mem d hx)
    unfold match_loop at hm
    cases h : cvdump.find? (fun c => c.email == d.1) with
    | some c =>
      rw [h] at hm
      exact ih hl' m hm
    | none =>
      rw [h] at hm
      rcases List.mem_cons.mp hm with rfl | hm'
      · refine ⟨hl d (List.mem_cons_self d rest), ?_⟩
        rintro ⟨c, hc, hce⟩
        have := List.find?_eq_none.mp h c hc
        simp only [MissingRecord.mk] at hce
        exact this (by simp [hce])
      · exact ih hl' m hm'

theorem filter_split_length (dvl : List DvlRow) :
    (dvl.filter (fun r => clean_email r.account_email != "")).length +
      (dvl.filter (fun r => clean_email r.account_email == "")).length = dvl.length := by
  induction dvl with
  | nil => rfl
  | cons a t ih =>
    by_cases h : clean_email a.account_email = "" <;>
      simp [List.filter_cons, h] <;> omega

/-- C5: the matcher partitions the roster exactly — every roster row
with a non-empty cleaned e-mail lands in exactly one of the matched or
missing partitions (matched iff its e-mail occurs in the deduplicated
survey table), rows whose cleaned e-mail is empty are excluded from
both, and |matched| + |missing| + |dropped-empty| = |roster|. -/
theorem match_doctors_partition (dvl : List DvlRow) (cvdump : List PRow) :
    (match_doctors dvl cvdump).1.length + (match_doctors dvl cvdump).2.length +
      (dvl.filter (fun r => clean_email r.account_email == "")).length = dvl.length ∧
    (∀ m ∈ (match_doctors dvl cvdump).1,
      m.hcp_email ≠ "" ∧ ∃ c ∈ cvdump, c.email = m.hcp_email) ∧
    (∀ m ∈ (match_doctors dvl cvdump).2,
      m.hcp_email ≠ "" ∧ ¬ ∃ c ∈ cvdump, c.email = m.hcp_email) := by
  have hsurv : ∀ d ∈ (dvl.map (fun r => (clean_email r.account_email, r.customer_code))).filter
      (fun p => p.1 != ""), d.1 ≠ "" := by
    intro d hd
    have := (List.mem_filter.mp hd).2
    simpa using this
  refine ⟨?_, match_loop_matched_mem cvdump _ hsurv, match_loop_missing_mem cvdump _ hsurv⟩
  unfold match_doctors
  rw [match_loop_length]
  have hmaplen : ((dvl.map (fun r => (clean_email r.account_email, r.customer_code))).filter
      (fun p => p.1 != "")).length =
      (dvl.filter (fun r => clean_email r.account_email != "")).length := by
    rw [← List.countP_eq_length_filter, ← List.countP_eq_length_filter, List.countP_map]
    rfl
  rw [hmaplen]
  exact filter_split_length dvl

/-- Witness for `match_doctors_partition` on a concrete roster and
survey table. -/
theorem match_doctors_partition_witness :
    (MatchedRecord.mk (some "D100") "a@x.com" 7) ∈
      (match_doctors [DvlRow.mk (some " A@X.com ") (some "D100")]
        [PRow.mk "a@x.com" (some 5) 7]).1 ∧
    "a@x.com" ≠ "" ∧
    ∃ c ∈ [PRow.mk "a@x.com" (some 5) 7], c.email = "a@x.com" :=
  ⟨by decide,
   (match_doctors_partition [DvlRow.mk (some " A@X.com ") (some "D100")]
      [PRow.mk "a@x.com" (some 5) 7]).2.1
     (MatchedRecord.mk (some "D100") "a@x.com" 7) (by decide)⟩

/-- Witness for `rate_substr_first_row`: with two rows matched by the
compiled pattern, the rate of the earlier row (100) is returned, not
the later row's 200. -/
theorem rate_substr_first_row_witness :
    calculate_honorarium_rate re_engine_example "cardio" "Tier 3"
      (RatesDf.mk ["Tier 3"]
        [RateRow.mk (some "Dermatology") [("Tier 3", RateCell.num 500)],
         RateRow.mk (some "Cardiology A") [("Tier 3", RateCell.num 100)],
         RateRow.mk (some "Cardiology B") [("Tier 3", RateCell.num 200)]]) = 100 := by
  have h := rate_substr_first_row re_engine_example
    (fun s => listContains (pyLower (pyStrip "cardio")).data (pyLower s).data)
    "cardio" "Tier 3" ["Tier 3"]
    [RateRow.mk (some "Dermatology") [("Tier 3", RateCell.num 500)]]
    [RateRow.mk (some "Cardiology B") [("Tier 3", RateCell.num 200)]]
    (RateRow.mk (some "Cardiology A") [("Tier 3", RateCell.num 100)])
    rfl (by decide) (by decide) (by decide)
  simpa using h

theorem char_toLower_fix (c : Char) (l : List Char) (h : c ∈ l.map Char.toLower) :
    Char.toLower c = c := by
  obtain ⟨d, _, rfl⟩ := List.mem_map.mp h
  exact char_toLower_idem d

theorem clean_email_some (s : String) :
    clean_email (some s) =
      if s = "nan" ∨ s = "" then ""
      else ⟨((pyStripL s.data).map Char.toLower).filter pyIsPrintable⟩ := rfl

/-- C4: tier assignment is a pure deterministic function of
`total_score` following the fixed non-overlapping ascending ladder
(≤ 13 → Tier 1, 14–26 → Tier 2, 27–40 → Tier 3, ≥ 41 → Tier 4), and the
boundary values 13/14, 26/27 and 40/41 land in the documented adjacent
tiers. -/
theorem calculate_tier_ladder :
    (∀ n : Nat,
      (n ≤ 13 → calculate_tier n = "Tier 1") ∧
      (14 ≤ n → n ≤ 26 → calculate_tier n = "Tier 2") ∧
      (27 ≤ n → n ≤ 40 → calculate_tier n = "Tier 3") ∧
      (41 ≤ n → calculate_tier n = "Tier 4")) ∧
    calculate_tier 13 = "Tier 1" ∧ calculate_tier 14 = "Tier 2" ∧
    calculate_tier 26 = "Tier 2" ∧ calculate_tier 27 = "Tier 3" ∧
    calculate_tier 40 = "Tier 3" ∧ calculate_tier 41 = "Tier 4" := by
  refine ⟨fun n => ⟨?_, ?_, ?_, ?_⟩, by decide, by decide, by decide, by decide,
    by decide, by decide⟩ <;>
    (intros; unfold calculate_tier; split_ifs <;> first | rfl | omega)

/-- Witness for `calculate_tier_ladder` at the concrete score 20. -/
theorem calculate_tier_ladder_witness :
    (14 ≤ 20 ∧ 20 ≤ 26) ∧ calculate_tier 20 = "Tier 2" :=
  ⟨⟨by decide, by decide⟩, (calculate_tier_ladder.1 20).2.1 (by decide) (by decide)⟩

/-- C9: `clean_email` always yields a printable, already-lowercased
string; NaN, `"nan"` and `""` yield `""`; but the result can retain
leading/trailing whitespace because stripping precedes the removal of
non-printable characters, so `clean_email` is not idempotent. -/
theorem clean_email_normalizes :
    (∀ e, (clean_email e).data.all pyIsPrintable = true ∧
      pyLower (clean_email e) = clean_email e) ∧
    clean_email none = "" ∧ clean_email (some "nan") = "" ∧ clean_email (some "") = "" ∧
    clean_email (some control_email_example) = " a " ∧
    clean_email (some (clean_email (some control_email_example))) ≠
      clean_email (some control_email_example) := by
  refine ⟨fun e => ⟨?_, ?_⟩, by decide, by decide, by decide, by decide, by decide⟩
  · match e with
    | none => decide
    | some s =>
      rw [clean_email_some]
      split_ifs
      · decide
      · show (((pyStripL s.data).map Char.toLower).filter pyIsPrintable).all pyIsPrintable = true
        simp [List.all_eq_true, List.mem_filter]
  · match e with
    | none => decide
    | some s =>
      rw [clean_email_some]
      split_ifs
      · decide
      · show pyLower ⟨((pyStripL s.data).map Char.toLower).filter pyIsPrintable⟩ = _
        unfold pyLower
        apply congrArg String.mk
        show (((pyStripL s.data).map Char.toLower).filter pyIsPrintable).map Char.toLower = _
        have h : ∀ c ∈ ((pyStripL s.data).map Char.toLower).filter pyIsPrintable,
            Char.toLower c = c := by
          intro c hc
          exact char_toLower_fix c (pyStripL s.data) (List.mem_filter.mp hc).1
        calc (((pyStripL s.data).map Char.toLower).filter pyIsPrintable).map Char.toLower
            = (((pyStripL s.data).map Char.toLower).filter pyIsPrintable).map id :=
              List.map_congr_left h
          _ = ((pyStripL s.data).map Char.toLower).filter pyIsPrintable := List.map_id _

/-- C8 counterexample: the `src/FMV.py` validator rejects an empty,
correctly-headered Calculator table, contradicting the claim that an
empty table with the required headers is accepted for the Calculator
target. -/
theorem validate_dataframe_py_rejects_empty_calculator :
    FMVpy.validate_dataframe (Df.mk ["HCP Email"] 0) "FMV Calculator" ["HCP Email"] = false := by
  decide

/-- C8 (amended): in `src/FMVcalnew1.py`, an empty table with the
required headers is accepted iff it is the `"FMV Calculator"` table —
any other empty table (roster, survey) fails validation; in
`src/FMV.py`, every empty table fails validation, the Calculator
included. -/
theorem validate_dataframe_emptiness :
    (∀ cols req, (∀ c ∈ req, c ∈ cols) →
      validate_dataframe (Df.mk cols 0) "FMV Calculator" req = true) ∧
    (∀ df name req, df.empty = true → name ≠ "FMV Calculator" →
      validate_dataframe df name req = false) ∧
    (∀ df name req, df.empty = true → FMVpy.validate_dataframe df name req = false) := by
  refine ⟨?_, ?_, ?_⟩
  · intro cols req h
    unfold validate_dataframe
    have he : (Df.mk cols 0).empty = true := by simp [Df.empty]
    rw [he]
    simp only [Bool.true_and, beq_self_eq_true, if_true]
    simp only [List.all_eq_true, List.contains, List.elem_eq_mem, decide_eq_true_eq]
    exact h
  · intro df name req hemp hname
    unfold validate_dataframe
    rw [hemp]
    have : (name == "FMV Calculator") = false := by
      simp [hname]
    rw [this]
    simp
  · intro df name req hemp
    unfold FMVpy.validate_dataframe
    rw [hemp]
    simp

/-- Witness for `validate_dataframe_emptiness` on concrete tables. -/
theorem validate_dataframe_emptiness_witness :
    (∀ c ∈ ["HCP Email"], c ∈ ["HCP Email"]) ∧
    validate_dataframe (Df.mk ["HCP Email"] 0) "FMV Calculator" ["HCP Email"] = true ∧
    validate_dataframe (Df.mk ["HCP Email", "Start time"] 0) "CVdump" [] = false :=
  ⟨by decide,
   validate_dataframe_emptiness.1 ["HCP Email"] ["HCP Email"] (by decide),
   validate_dataframe_emptiness.2.1 (Df.mk ["HCP Email", "Start time"] 0) "CVdump" []
     (by decide) (by decide)⟩

